import Mathlib

/-!
Verification of the resource-cache / drawable-object core of the
magnum-examples cube-map sample.

The embedding follows `src/cubemap/CubeMap.cpp`:
  * `CubeMap::CubeMap` (lines 46-118) is `construct`, split into the three
    resolution stages `resolveCubeMesh`, `resolveCubeMapTexture` and
    `resolveShader`, one per required resource key, in source order;
  * `CubeMap::draw` (lines 120-127) is `draw`.

The ResourceManager itself is library code that the sample only calls;
its `get`/`set` operations and entry model (state, policy, keyed lookup)
are modelled from the spec (sections 3 and 4.1) as an association list of
entries.  Constructed resource instances are identified by a freshness
counter `nextId`, so identity of cached instances is identity of ids.
Every cache or GPU interaction of the constructor and of `draw` is also
recorded in an event trace, which the ordering theorems inspect.
-/

namespace MagnumCubeMap

/-- Resource kinds used by the sample: the cache namespaces keys by kind
(the template parameter of `get` and `set` in the source). -/
inductive Kind where
  | mesh
  | buffer
  | cubeMapTexture
  | tgaImporter
  | shaderProgram
deriving DecidableEq

/-- Modelled from the spec: `ResourceDataState` of an entry. -/
inductive ResourceDataState where
  | loading
  | final
deriving DecidableEq

/-- Modelled from the spec: `ResourcePolicy` of an entry. -/
inductive ResourcePolicy where
  | resident
  | referenceCounted
  | manual
deriving DecidableEq

/-- Modelled from the spec: a ResourceEntry of the cache.  `res` is the
identity of the constructed resource instance. -/
structure Entry where
  kind : Kind
  key : String
  res : Nat
  state : ResourceDataState
  policy : ResourcePolicy
deriving DecidableEq

/-- Modelled from the spec: `ResourceManager::get` looks an entry up by
(kind, key) and returns an empty result on miss, without constructing. -/
def getR : List Entry → Kind → String → Option Entry
  | [], _, _ => none
  | e :: c, k, key => if e.kind = k ∧ e.key = key then some e else getR c k key

/-- Modelled from the spec: `ResourceManager::set` registers a newly
constructed resource under (kind, key) with a state and a policy. -/
def setR (c : List Entry) (k : Kind) (key : String) (r : Nat)
    (st : ResourceDataState) (p : ResourcePolicy) : List Entry :=
  c ++ [⟨k, key, r, st, p⟩]

/-- 4x4 matrices; entries are modelled as exact integers, the composition
structure being what the draw contract is about. -/
abbrev Mat4 := Fin 4 → Fin 4 → Int

/-- Matrix product, in the usual row-times-column order. -/
def mul4 (a b : Mat4) : Mat4 := fun i j => ∑ x, a i x * b x j

/-- The six cube-map faces. -/
inductive Face where
  | px
  | nx
  | py
  | ny
  | pz
  | nz
deriving DecidableEq

/-- File-name suffix of a face, as in CubeMap.cpp lines 78-105. -/
def faceSuffix : Face → String
  | .px => "+x.tga"
  | .nx => "-x.tga"
  | .py => "+y.tga"
  | .ny => "-y.tga"
  | .pz => "+z.tga"
  | .nz => "-z.tga"

/-- The fixed face order of CubeMap.cpp lines 78-108. -/
def faceOrder : List Face := [.px, .nx, .py, .ny, .pz, .nz]

/-- An observable event of the constructor or of `draw`: cache operations,
importer file accesses and GPU commands. -/
inductive Ev where
  | getE (k : Kind) (key : String) (hit : Bool)
  | setE (k : Kind) (key : String) (res : Nat) (st : ResourceDataState) (p : ResourcePolicy)
  | openFileE (path : String)
  | setStorageE (levels width height : Nat)
  | setSubImageE (f : Face) (mip : Nat)
  | generateMipmapE
  | setUniformE (shaderRes : Nat) (m : Mat4)
  | useShaderE (shaderRes : Nat)
  | bindTextureE (texRes layer : Nat)
  | drawMeshE (meshRes : Nat)
deriving DecidableEq

/-- A decoded 2D image: only its size matters to the core. -/
structure ImageData2D where
  width : Nat
  height : Nat
deriving DecidableEq

/-- Errors aborting `CubeMap` construction: a face failed to decode, or
the "tga-importer" entry was absent or not Final when dereferenced. -/
inductive BuildError where
  | decodeError (path : String)
  | importerUnavailable
deriving DecidableEq

/-- The handles a constructed `CubeMap` object retains (CubeMap.h members
`cube`, `texture`, `shader`), as resource-instance identities. -/
structure CubeMap where
  cube : Nat
  texture : Nat
  shader : Nat
deriving DecidableEq

/-- Output of one resolution stage: the resolved resource id, the cache
and freshness counter after the stage, and the stage's event trace. -/
structure StageOut where
  id : Nat
  cache : List Entry
  nextId : Nat
  trace : List Ev

/-- CubeMap.cpp lines 50-65: resolve the "cube" mesh; on miss build the
mesh with its two buffers and register all three as Final/Resident
("cube-buffer" and "cube-index-buffer" first, then the mesh). -/
def resolveCubeMesh (c : List Entry) (n : Nat) : StageOut :=
  match getR c .mesh "cube" with
  | some e => ⟨e.res, c, n, [.getE .mesh "cube" true]⟩
  | none =>
    let mesh := n
    let buffer := n + 1
    let indexBuffer := n + 2
    let c1 := setR c .buffer "cube-buffer" buffer .final .resident
    let c2 := setR c1 .buffer "cube-index-buffer" indexBuffer .final .resident
    let c3 := setR c2 .mesh "cube" mesh .final .resident
    ⟨mesh, c3, n + 3,
      [.getE .mesh "cube" false,
       .setE .buffer "cube-buffer" buffer .final .resident,
       .setE .buffer "cube-index-buffer" indexBuffer .final .resident,
       .setE .mesh "cube" mesh .final .resident]⟩

/-- Mip level count chosen at CubeMap.cpp line 81:
`Math::log2(size.min())+1`. -/
def storageLevels (w h : Nat) : Nat := Nat.log2 (min w h) + 1

/-- One of the five non-first faces (CubeMap.cpp lines 85-108): open the
face file, decode, and on success upload it at mip level 0. -/
def faceUpload (imp : String → Option ImageData2D) (pre : String) (f : Face) :
    List Ev × Option BuildError :=
  let path := pre ++ faceSuffix f
  match imp path with
  | none => ([.openFileE path], some (.decodeError path))
  | some _ => ([.openFileE path, .setSubImageE f 0], none)

/-- Upload a list of faces in order, stopping at the first decode
failure. -/
def uploadFaces (imp : String → Option ImageData2D) (pre : String) :
    List Face → List Ev × Option BuildError
  | [] => ([], none)
  | f :: fs =>
    match faceUpload imp pre f with
    | (t, some e) => (t, some e)
    | (t, none) =>
      let r := uploadFaces imp pre fs
      (t ++ r.1, r.2)

/-- Output of the texture stage (and of the whole constructor): result or
error, plus the cache, freshness counter and trace at that point. -/
structure TexOut where
  result : Except BuildError Nat
  cache : List Entry
  nextId : Nat
  trace : List Ev

/-- CubeMap.cpp lines 68-113: resolve the "texture" cube map.  On miss a
new texture is allocated and configured, the Final "tga-importer" resource
is obtained from the cache (never constructed here), the +x face fixes the
storage size and mip level count, the six faces are uploaded in order at
mip 0, mipmaps are generated once, and only then is the texture registered
as Final/Manual.  Any decode failure aborts before that registration. -/
def resolveCubeMapTexture (imp : String → Option ImageData2D) (pre : String)
    (c : List Entry) (n : Nat) : TexOut :=
  match getR c .cubeMapTexture "texture" with
  | some e => ⟨.ok e.res, c, n, [.getE .cubeMapTexture "texture" true]⟩
  | none =>
    let cubeMap := n
    let t0 : List Ev := [.getE .cubeMapTexture "texture" false]
    match getR c .tgaImporter "tga-importer" with
    | none =>
      ⟨.error .importerUnavailable, c, n + 1,
        t0 ++ [.getE .tgaImporter "tga-importer" false]⟩
    | some ie =>
      let t1 := t0 ++ [.getE .tgaImporter "tga-importer" true]
      if ie.state = .final then
        let path0 := pre ++ faceSuffix .px
        match imp path0 with
        | none => ⟨.error (.decodeError path0), c, n + 1, t1 ++ [.openFileE path0]⟩
        | some img =>
          let levels := storageLevels img.width img.height
          let t2 := t1 ++ [.openFileE path0,
            .setStorageE levels img.width img.height, .setSubImageE .px 0]
          match uploadFaces imp pre [.nx, .py, .ny, .pz, .nz] with
          | (t3, some e) => ⟨.error e, c, n + 1, t2 ++ t3⟩
          | (t3, none) =>
            ⟨.ok cubeMap,
              setR c .cubeMapTexture "texture" cubeMap .final .manual, n + 1,
              t2 ++ t3 ++ [.generateMipmapE,
                .setE .cubeMapTexture "texture" cubeMap .final .manual]⟩
      else ⟨.error .importerUnavailable, c, n + 1, t1⟩

/-- CubeMap.cpp lines 116-117: resolve the "shader"; on miss register a
new CubeMapShader as Final/Manual. -/
def resolveShader (c : List Entry) (n : Nat) : StageOut :=
  match getR c .shaderProgram "shader" with
  | some e => ⟨e.res, c, n, [.getE .shaderProgram "shader" true]⟩
  | none =>
    ⟨n, setR c .shaderProgram "shader" n .final .manual, n + 1,
      [.getE .shaderProgram "shader" false,
       .setE .shaderProgram "shader" n .final .manual]⟩

/-- Overall constructor output. -/
structure COut where
  result : Except BuildError CubeMap
  cache : List Entry
  nextId : Nat
  trace : List Ev

/-- `CubeMap::CubeMap` (CubeMap.cpp lines 46-118): resolve the cube mesh,
the cube-map texture and the shader, in that order, against the cache
state `c`; `imp` is the behaviour of the tga importer (`openFile` plus
`image2D`, `none` meaning decode failure) and `pre` the file prefix. -/
def construct (imp : String → Option ImageData2D) (pre : String)
    (c : List Entry) (n : Nat) : COut :=
  let m := resolveCubeMesh c n
  let t := resolveCubeMapTexture imp pre m.cache m.nextId
  match t.result with
  | .error e => ⟨.error e, t.cache, t.nextId, m.trace ++ t.trace⟩
  | .ok texId =>
    let s := resolveShader t.cache t.nextId
    ⟨.ok ⟨m.id, texId, s.id⟩, s.cache, s.nextId, m.trace ++ t.trace ++ s.trace⟩

/-- The texture sampling unit `CubeMapShader::TextureLayer`; its concrete
value lives in CubeMapShader.h, outside the sampled sources, and no claim
depends on it. -/
def textureLayer : Nat := 0

/-- `CubeMap::draw` (CubeMap.cpp lines 120-127): upload the product of the
camera's projection matrix and the object's transformation matrix as the
transformation-projection uniform, use the shader, bind the texture, and
draw the mesh — all through the handles retained at construction. -/
def draw (o : CubeMap) (projectionMatrix transformationMatrix : Mat4) : List Ev :=
  [.setUniformE o.shader (mul4 projectionMatrix transformationMatrix),
   .useShaderE o.shader,
   .bindTextureE o.texture textureLayer,
   .drawMeshE o.cube]

/-! ### Trace semantics: how events act on the cache, and projections -/

/-- Effect of one event on the cache: only `set` changes it. -/
def applyEv (c : List Entry) : Ev → List Entry
  | .setE k key r st p => setR c k key r st p
  | _ => c

/-- Effect of an event trace on the cache. -/
def applyEvents (c : List Entry) (t : List Ev) : List Entry :=
  t.foldl applyEv c

/-- Does the event touch the cache slot (kind, key)? -/
def isOpFor (k : Kind) (key : String) : Ev → Bool
  | .getE k2 key2 _ => decide (k2 = k ∧ key2 = key)
  | .setE k2 key2 _ _ _ => decide (k2 = k ∧ key2 = key)
  | _ => false

/-- The projection of a trace onto the cache operations for one slot. -/
def opsFor (k : Kind) (key : String) (t : List Ev) : List Ev :=
  t.filter (isOpFor k key)

/-- Is the event a `set` for the slot (kind, key)? -/
def isSetFor (k : Kind) (key : String) : Ev → Bool
  | .setE k2 key2 _ _ _ => decide (k2 = k ∧ key2 = key)
  | _ => false

/-- How many times the trace registers something under (kind, key). -/
def setCount (t : List Ev) (k : Kind) (key : String) : Nat :=
  (t.filter (isSetFor k key)).length

/-- The (kind, key, policy) triple of a `set` event. -/
def setProj : Ev → Option (Kind × String × ResourcePolicy)
  | .setE k key _ _ p => some (k, key, p)
  | _ => none

/-- The registrations performed by a trace, in order. -/
def setsOf (t : List Ev) : List (Kind × String × ResourcePolicy) :=
  t.filterMap setProj

/-- Is the event a texture upload or a mipmap generation? -/
def isTexOp : Ev → Bool
  | .setSubImageE _ _ => true
  | .generateMipmapE => true
  | _ => false

/-- The texture upload / mipmap events of a trace, in order. -/
def texOps (t : List Ev) : List Ev :=
  t.filter isTexOp

/-- Is the event a texture storage allocation? -/
def isStorageOp : Ev → Bool
  | .setStorageE _ _ _ => true
  | _ => false

/-- The storage allocation events of a trace. -/
def storageOps (t : List Ev) : List Ev :=
  t.filter isStorageOp

/-- Is the event a cache operation (`get` or `set`)? -/
def isCacheOp : Ev → Bool
  | .getE _ _ _ => true
  | .setE _ _ _ _ _ => true
  | _ => false

/-- Is the event an importer file access or a face upload (the only events
the face-loading loop emits)? -/
def isFileOp : Ev → Bool
  | .openFileE _ => true
  | .setSubImageE _ _ => true
  | _ => false

/-- The resource handle an event dereferences, if any. -/
def handleProj : Ev → Option Nat
  | .setUniformE sh _ => some sh
  | .useShaderE sh => some sh
  | .bindTextureE tex _ => some tex
  | .drawMeshE m => some m
  | _ => none

/-- All resource handles a trace dereferences. -/
def usedHandles (t : List Ev) : List Nat :=
  t.filterMap handleProj

/-- The matrix of the first uniform upload of a trace, if any. -/
def uploadedUniform (t : List Ev) : Option Mat4 :=
  (t.filterMap fun e => match e with
    | .setUniformE _ m => some m
    | _ => none).head?

/-- How many entries of the cache occupy the slot (kind, key). -/
def slotCount : List Entry → Kind → String → Nat
  | [], _, _ => 0
  | e :: c, k, key =>
    (if e.kind = k ∧ e.key = key then 1 else 0) + slotCount c k key

/-! ### Cache lookup and counting lemmas -/

@[simp] lemma getR_nil (k : Kind) (key : String) : getR [] k key = none := rfl

@[simp] lemma getR_cons (e : Entry) (c : List Entry) (k : Kind) (key : String) :
    getR (e :: c) k key =
      if e.kind = k ∧ e.key = key then some e else getR c k key := rfl

lemma getR_append_some {c : List Entry} {k : Kind} {key : String} {e : Entry}
    (d : List Entry) (h : getR c k key = some e) : getR (c ++ d) k key = some e := by
  induction c with
  | nil => simp [getR] at h
  | cons a c ih =>
    by_cases ha : a.kind = k ∧ a.key = key <;>
      simp_all [getR]

lemma getR_append_none {c : List Entry} {k : Kind} {key : String}
    (d : List Entry) (h : getR c k key = none) : getR (c ++ d) k key = getR d k key := by
  induction c with
  | nil => simp
  | cons a c ih =>
    by_cases ha : a.kind = k ∧ a.key = key <;>
      simp_all [getR]

lemma getR_eq_none_of_kind {d : List Entry} {k : Kind} {key : String}
    (h : ∀ e ∈ d, e.kind ≠ k) : getR d k key = none := by
  induction d with
  | nil => simp [getR]
  | cons a d ih =>
    have ha : ¬(a.kind = k ∧ a.key = key) := fun hc => h a (by simp) hc.1
    simp [getR, ha]
    exact ih fun e he => h e (by simp [he])

lemma getR_append_of_kind {c d : List Entry} {k : Kind} {key : String}
    (h : ∀ e ∈ d, e.kind ≠ k) : getR (c ++ d) k key = getR c k key := by
  cases hc : getR c k key with
  | some e => exact getR_append_some d hc
  | none => rw [getR_append_none d hc, getR_eq_none_of_kind h]

@[simp] lemma slotCount_nil (k : Kind) (key : String) : slotCount [] k key = 0 := rfl

@[simp] lemma slotCount_cons (e : Entry) (c : List Entry) (k : Kind) (key : String) :
    slotCount (e :: c) k key =
      (if e.kind = k ∧ e.key = key then 1 else 0) + slotCount c k key := rfl

lemma slotCount_append (c d : List Entry) (k : Kind) (key : String) :
    slotCount (c ++ d) k key = slotCount c k key + slotCount d k key := by
  induction c with
  | nil => simp
  | cons a c ih => simp [ih]; omega

lemma getR_none_iff_slotCount {c : List Entry} {k : Kind} {key : String} :
    getR c k key = none ↔ slotCount c k key = 0 := by
  induction c with
  | nil => simp
  | cons a c ih =>
    by_cases ha : a.kind = k ∧ a.key = key <;> simp [getR, ha, ih]

/-! ### Trace semantics lemmas -/

@[simp] lemma applyEvents_nil (c : List Entry) : applyEvents c [] = c := rfl

@[simp] lemma applyEvents_cons (c : List Entry) (e : Ev) (t : List Ev) :
    applyEvents c (e :: t) = applyEvents (applyEv c e) t := rfl

lemma applyEvents_append (c : List Entry) (t1 t2 : List Ev) :
    applyEvents c (t1 ++ t2) = applyEvents (applyEvents c t1) t2 :=
  List.foldl_append ..

lemma applyEv_grows (c : List Entry) (e : Ev) : ∃ d, applyEv c e = c ++ d := by
  cases e
  case setE k key r st p => exact ⟨[⟨k, key, r, st, p⟩], rfl⟩
  all_goals exact ⟨[], by simp [applyEv]⟩

lemma applyEvents_grows (t : List Ev) : ∀ c : List Entry, ∃ d, applyEvents c t = c ++ d := by
  induction t with
  | nil => exact fun c => ⟨[], (List.append_nil c).symm⟩
  | cons e t ih =>
    intro c
    obtain ⟨d0, hd0⟩ := applyEv_grows c e
    obtain ⟨d1, hd1⟩ := ih (applyEv c e)
    refine ⟨d0 ++ d1, ?_⟩
    rw [applyEvents_cons, hd1, hd0, List.append_assoc]

/-! ### Face-upload loop lemmas -/

lemma uploadFaces_fileOps (imp : String → Option ImageData2D) (pre : String) :
    ∀ fs : List Face, ∀ e ∈ (uploadFaces imp pre fs).1, isFileOp e = true := by
  intro fs
  induction fs with
  | nil => simp [uploadFaces]
  | cons f fs ih =>
    intro e he
    rw [uploadFaces] at he
    cases himg : imp (pre ++ faceSuffix f) with
    | none =>
      simp [faceUpload, himg] at he
      simp [he, isFileOp]
    | some img =>
      simp [faceUpload, himg] at he
      rcases he with he | he | he
      · simp [he, isFileOp]
      · simp [he, isFileOp]
      · exact ih e he

lemma opsFor_of_fileOps {t : List Ev} (h : ∀ e ∈ t, isFileOp e = true)
    (k : Kind) (key : String) : opsFor k key t = [] := by
  rw [opsFor, List.filter_eq_nil_iff]
  intro e he
  have h2 := h e he
  cases e <;> simp_all [isFileOp, isOpFor]

lemma setsOf_of_fileOps {t : List Ev} (h : ∀ e ∈ t, isFileOp e = true) :
    setsOf t = [] := by
  rw [setsOf, List.filterMap_eq_nil_iff]
  intro e he
  have h2 := h e he
  cases e <;> simp_all [isFileOp, setProj]

lemma storageOps_of_fileOps {t : List Ev} (h : ∀ e ∈ t, isFileOp e = true) :
    storageOps t = [] := by
  rw [storageOps, List.filter_eq_nil_iff]
  intro e he
  have h2 := h e he
  cases e <;> simp_all [isFileOp, isStorageOp]

lemma setCount_of_fileOps {t : List Ev} (h : ∀ e ∈ t, isFileOp e = true)
    (k : Kind) (key : String) : setCount t k key = 0 := by
  rw [setCount, List.length_eq_zero, List.filter_eq_nil_iff]
  intro e he
  have h2 := h e he
  cases e <;> simp_all [isFileOp, isSetFor]

lemma applyEvents_of_fileOps {t : List Ev} (h : ∀ e ∈ t, isFileOp e = true)
    (c : List Entry) : applyEvents c t = c := by
  induction t generalizing c with
  | nil => rfl
  | cons e t ih =>
    have he := h e (by simp)
    have hid : applyEv c e = c := by
      cases e <;> simp_all [isFileOp, applyEv]
    rw [applyEvents_cons, hid]
    exact ih (fun e2 h2 => h e2 (by simp [h2])) c

lemma uploadFaces_ok_texOps (imp : String → Option ImageData2D) (pre : String) :
    ∀ fs t, uploadFaces imp pre fs = (t, none) →
      texOps t = fs.map fun f => Ev.setSubImageE f 0 := by
  intro fs
  induction fs with
  | nil =>
    intro t h
    rw [uploadFaces] at h
    cases h
    rfl
  | cons f fs ih =>
    intro t h
    rw [uploadFaces] at h
    cases himg : imp (pre ++ faceSuffix f) with
    | none => simp [faceUpload, himg] at h
    | some img =>
      simp only [faceUpload, himg] at h
      rcases hu : uploadFaces imp pre fs with ⟨t2, r2⟩
      rw [hu] at h
      simp only [Prod.mk.injEq] at h
      obtain ⟨ht, hr⟩ := h
      subst ht
      rw [hr] at hu
      have ih2 := ih t2 hu
      simp only [texOps] at ih2 ⊢
      simp [List.filter_append, List.filter_cons, isTexOp, ih2]
/-! ### Characterization of the three resolution stages -/

/-- The entry registered for the vertex buffer on a mesh miss. -/
def cubeBufferEntry (n : Nat) : Entry := ⟨.buffer, "cube-buffer", n + 1, .final, .resident⟩

/-- The entry registered for the index buffer on a mesh miss. -/
def cubeIndexBufferEntry (n : Nat) : Entry :=
  ⟨.buffer, "cube-index-buffer", n + 2, .final, .resident⟩

/-- The entry registered for the mesh on a mesh miss. -/
def cubeMeshEntry (n : Nat) : Entry := ⟨.mesh, "cube", n, .final, .resident⟩

/-- The entry registered for the cube-map texture on a texture miss. -/
def textureEntry (n : Nat) : Entry := ⟨.cubeMapTexture, "texture", n, .final, .manual⟩

/-- The entry registered for the shader on a shader miss. -/
def shaderEntry (n : Nat) : Entry := ⟨.shaderProgram, "shader", n, .final, .manual⟩

lemma resolveCubeMesh_hit {c : List Entry} {e : Entry} (n : Nat)
    (h : getR c .mesh "cube" = some e) :
    resolveCubeMesh c n = ⟨e.res, c, n, [.getE .mesh "cube" true]⟩ := by
  simp [resolveCubeMesh, h]

lemma resolveCubeMesh_miss {c : List Entry} (n : Nat)
    (h : getR c .mesh "cube" = none) :
    resolveCubeMesh c n =
      ⟨n, c ++ [cubeBufferEntry n, cubeIndexBufferEntry n, cubeMeshEntry n], n + 3,
       [.getE .mesh "cube" false,
        .setE .buffer "cube-buffer" (n + 1) .final .resident,
        .setE .buffer "cube-index-buffer" (n + 2) .final .resident,
        .setE .mesh "cube" n .final .resident]⟩ := by
  simp [resolveCubeMesh, h, setR, cubeBufferEntry, cubeIndexBufferEntry, cubeMeshEntry]

lemma resolveTex_hit (imp : String → Option ImageData2D) (pre : String)
    {c : List Entry} {e : Entry} (n : Nat)
    (h : getR c .cubeMapTexture "texture" = some e) :
    resolveCubeMapTexture imp pre c n =
      ⟨.ok e.res, c, n, [.getE .cubeMapTexture "texture" true]⟩ := by
  simp [resolveCubeMapTexture, h]

lemma resolveTex_noImporter (imp : String → Option ImageData2D) (pre : String)
    {c : List Entry} (n : Nat)
    (ht : getR c .cubeMapTexture "texture" = none)
    (hi : getR c .tgaImporter "tga-importer" = none) :
    resolveCubeMapTexture imp pre c n =
      ⟨.error .importerUnavailable, c, n + 1,
       [.getE .cubeMapTexture "texture" false,
        .getE .tgaImporter "tga-importer" false]⟩ := by
  simp [resolveCubeMapTexture, ht, hi]

lemma resolveTex_importerNotFinal (imp : String → Option ImageData2D) (pre : String)
    {c : List Entry} {ie : Entry} (n : Nat)
    (ht : getR c .cubeMapTexture "texture" = none)
    (hi : getR c .tgaImporter "tga-importer" = some ie)
    (hs : ¬ ie.state = .final) :
    resolveCubeMapTexture imp pre c n =
      ⟨.error .importerUnavailable, c, n + 1,
       [.getE .cubeMapTexture "texture" false,
        .getE .tgaImporter "tga-importer" true]⟩ := by
  simp [resolveCubeMapTexture, ht, hi, hs]

lemma resolveTex_firstFaceFail (imp : String → Option ImageData2D) (pre : String)
    {c : List Entry} {ie : Entry} (n : Nat)
    (ht : getR c .cubeMapTexture "texture" = none)
    (hi : getR c .tgaImporter "tga-importer" = some ie)
    (hs : ie.state = .final)
    (h0 : imp (pre ++ faceSuffix .px) = none) :
    resolveCubeMapTexture imp pre c n =
      ⟨.error (.decodeError (pre ++ faceSuffix .px)), c, n + 1,
       [.getE .cubeMapTexture "texture" false,
        .getE .tgaImporter "tga-importer" true,
        .openFileE (pre ++ faceSuffix .px)]⟩ := by
  simp [resolveCubeMapTexture, ht, hi, hs, h0]

lemma resolveTex_restFail (imp : String → Option ImageData2D) (pre : String)
    {c : List Entry} {ie : Entry} {img : ImageData2D} {t3 : List Ev} {err : BuildError}
    (n : Nat)
    (ht : getR c .cubeMapTexture "texture" = none)
    (hi : getR c .tgaImporter "tga-importer" = some ie)
    (hs : ie.state = .final)
    (h0 : imp (pre ++ faceSuffix .px) = some img)
    (hrest : uploadFaces imp pre [.nx, .py, .ny, .pz, .nz] = (t3, some err)) :
    resolveCubeMapTexture imp pre c n =
      ⟨.error err, c, n + 1,
       [.getE .cubeMapTexture "texture" false,
        .getE .tgaImporter "tga-importer" true,
        .openFileE (pre ++ faceSuffix .px),
        .setStorageE (storageLevels img.width img.height) img.width img.height,
        .setSubImageE .px 0] ++ t3⟩ := by
  simp [resolveCubeMapTexture, ht, hi, hs, h0, hrest]

lemma resolveTex_ok (imp : String → Option ImageData2D) (pre : String)
    {c : List Entry} {ie : Entry} {img : ImageData2D} {t3 : List Ev}
    (n : Nat)
    (ht : getR c .cubeMapTexture "texture" = none)
    (hi : getR c .tgaImporter "tga-importer" = some ie)
    (hs : ie.state = .final)
    (h0 : imp (pre ++ faceSuffix .px) = some img)
    (hrest : uploadFaces imp pre [.nx, .py, .ny, .pz, .nz] = (t3, none)) :
    resolveCubeMapTexture imp pre c n =
      ⟨.ok n, c ++ [textureEntry n], n + 1,
       ([.getE .cubeMapTexture "texture" false,
         .getE .tgaImporter "tga-importer" true,
         .openFileE (pre ++ faceSuffix .px),
         .setStorageE (storageLevels img.width img.height) img.width img.height,
         .setSubImageE .px 0] ++ t3) ++
        [.generateMipmapE,
         .setE .cubeMapTexture "texture" n .final .manual]⟩ := by
  simp [resolveCubeMapTexture, ht, hi, hs, h0, hrest, setR, textureEntry]

lemma resolveShader_hit {c : List Entry} {e : Entry} (n : Nat)
    (h : getR c .shaderProgram "shader" = some e) :
    resolveShader c n = ⟨e.res, c, n, [.getE .shaderProgram "shader" true]⟩ := by
  simp [resolveShader, h]

lemma resolveShader_miss {c : List Entry} (n : Nat)
    (h : getR c .shaderProgram "shader" = none) :
    resolveShader c n =
      ⟨n, c ++ [shaderEntry n], n + 1,
       [.getE .shaderProgram "shader" false,
        .setE .shaderProgram "shader" n .final .manual]⟩ := by
  simp [resolveShader, h, setR, shaderEntry]

/-! ### Lookup through the entries each stage appends -/

lemma getR_meshDelta_other {c : List Entry} {k : Kind} (n : Nat) (key : String)
    (hk : k ≠ .buffer ∧ k ≠ .mesh) :
    getR (c ++ [cubeBufferEntry n, cubeIndexBufferEntry n, cubeMeshEntry n]) k key =
      getR c k key := by
  refine getR_append_of_kind ?_
  intro e he
  simp [cubeBufferEntry, cubeIndexBufferEntry, cubeMeshEntry] at he
  rcases he with rfl | rfl | rfl
  · exact fun h => hk.1 h.symm
  · exact fun h => hk.1 h.symm
  · exact fun h => hk.2 h.symm

lemma getR_meshDelta_self {c : List Entry} (n : Nat)
    (h : getR c .mesh "cube" = none) :
    getR (c ++ [cubeBufferEntry n, cubeIndexBufferEntry n, cubeMeshEntry n])
      .mesh "cube" = some (cubeMeshEntry n) := by
  rw [getR_append_none _ h]
  rfl

lemma getR_texDelta_other {c : List Entry} {k : Kind} (n : Nat) (key : String)
    (hk : k ≠ .cubeMapTexture) :
    getR (c ++ [textureEntry n]) k key = getR c k key := by
  refine getR_append_of_kind ?_
  intro e he
  simp [textureEntry] at he
  subst he
  exact fun h => hk h.symm

lemma getR_texDelta_self {c : List Entry} (n : Nat)
    (h : getR c .cubeMapTexture "texture" = none) :
    getR (c ++ [textureEntry n]) .cubeMapTexture "texture" = some (textureEntry n) := by
  rw [getR_append_none _ h]
  rfl

lemma getR_shaderDelta_other {c : List Entry} {k : Kind} (n : Nat) (key : String)
    (hk : k ≠ .shaderProgram) :
    getR (c ++ [shaderEntry n]) k key = getR c k key := by
  refine getR_append_of_kind ?_
  intro e he
  simp [shaderEntry] at he
  subst he
  exact fun h => hk h.symm

lemma getR_shaderDelta_self {c : List Entry} (n : Nat)
    (h : getR c .shaderProgram "shader" = none) :
    getR (c ++ [shaderEntry n]) .shaderProgram "shader" = some (shaderEntry n) := by
  rw [getR_append_none _ h]
  rfl

/-! ### Composite facts about the constructor -/

/-- When all three resources are already cached, construction performs
three hit lookups, holds the cached instances, and changes nothing. -/
lemma construct_all_hit (imp : String → Option ImageData2D) (pre : String)
    {c : List Entry} {em et es : Entry} (n : Nat)
    (hm : getR c .mesh "cube" = some em)
    (ht : getR c .cubeMapTexture "texture" = some et)
    (hs : getR c .shaderProgram "shader" = some es) :
    construct imp pre c n =
      ⟨.ok ⟨em.res, et.res, es.res⟩, c, n,
       [.getE .mesh "cube" true, .getE .cubeMapTexture "texture" true,
        .getE .shaderProgram "shader" true]⟩ := by
  simp [construct, resolveCubeMesh_hit n hm, resolveTex_hit imp pre n ht,
    resolveShader_hit n hs]

lemma resolveCubeMesh_cache_shape (c : List Entry) (n : Nat) :
    (resolveCubeMesh c n).cache = c ∨
    ((resolveCubeMesh c n).cache =
        c ++ [cubeBufferEntry n, cubeIndexBufferEntry n, cubeMeshEntry n] ∧
      getR c .mesh "cube" = none) := by
  cases hm : getR c .mesh "cube" with
  | some e => rw [resolveCubeMesh_hit n hm]; exact .inl rfl
  | none => rw [resolveCubeMesh_miss n hm]; exact .inr ⟨rfl, rfl⟩

lemma resolveTex_cache_shape (imp : String → Option ImageData2D) (pre : String)
    (c : List Entry) (n : Nat) :
    (resolveCubeMapTexture imp pre c n).cache = c ∨
    ((resolveCubeMapTexture imp pre c n).cache = c ++ [textureEntry n] ∧
      getR c .cubeMapTexture "texture" = none) := by
  cases ht : getR c .cubeMapTexture "texture" with
  | some e => rw [resolveTex_hit imp pre n ht]; exact .inl rfl
  | none =>
    cases hi : getR c .tgaImporter "tga-importer" with
    | none => rw [resolveTex_noImporter imp pre n ht hi]; exact .inl rfl
    | some ie =>
      by_cases hs : ie.state = .final
      · cases h0 : imp (pre ++ faceSuffix .px) with
        | none => rw [resolveTex_firstFaceFail imp pre n ht hi hs h0]; exact .inl rfl
        | some img =>
          rcases hrest : uploadFaces imp pre [.nx, .py, .ny, .pz, .nz] with ⟨t3, r3⟩
          cases r3 with
          | some err => rw [resolveTex_restFail imp pre n ht hi hs h0 hrest]; exact .inl rfl
          | none => rw [resolveTex_ok imp pre n ht hi hs h0 hrest]; exact .inr ⟨rfl, rfl⟩
      · rw [resolveTex_importerNotFinal imp pre n ht hi hs]; exact .inl rfl

lemma resolveShader_cache_shape (c : List Entry) (n : Nat) :
    (resolveShader c n).cache = c ∨
    ((resolveShader c n).cache = c ++ [shaderEntry n] ∧
      getR c .shaderProgram "shader" = none) := by
  cases hs : getR c .shaderProgram "shader" with
  | some e => rw [resolveShader_hit n hs]; exact .inl rfl
  | none => rw [resolveShader_miss n hs]; exact .inr ⟨rfl, rfl⟩

lemma resolveCubeMesh_getR_self (c : List Entry) (n : Nat) :
    ∃ e, getR (resolveCubeMesh c n).cache .mesh "cube" = some e ∧
      e.res = (resolveCubeMesh c n).id := by
  cases hm : getR c .mesh "cube" with
  | some e => rw [resolveCubeMesh_hit n hm]; exact ⟨e, hm, rfl⟩
  | none => rw [resolveCubeMesh_miss n hm]; exact ⟨cubeMeshEntry n, getR_meshDelta_self n hm, rfl⟩

lemma resolveCubeMesh_getR_other {k : Kind} (c : List Entry) (n : Nat) (key : String)
    (hk : k ≠ .buffer ∧ k ≠ .mesh) :
    getR (resolveCubeMesh c n).cache k key = getR c k key := by
  rcases resolveCubeMesh_cache_shape c n with h | ⟨h, -⟩ <;> rw [h]
  exact getR_meshDelta_other n key hk

lemma resolveTex_getR_other {k : Kind} (imp : String → Option ImageData2D) (pre : String)
    (c : List Entry) (n : Nat) (key : String) (hk : k ≠ .cubeMapTexture) :
    getR (resolveCubeMapTexture imp pre c n).cache k key = getR c k key := by
  rcases resolveTex_cache_shape imp pre c n with h | ⟨h, -⟩ <;> rw [h]
  exact getR_texDelta_other n key hk

lemma resolveShader_getR_other {k : Kind} (c : List Entry) (n : Nat) (key : String)
    (hk : k ≠ .shaderProgram) :
    getR (resolveShader c n).cache k key = getR c k key := by
  rcases resolveShader_cache_shape c n with h | ⟨h, -⟩ <;> rw [h]
  exact getR_shaderDelta_other n key hk

lemma resolveShader_getR_self (c : List Entry) (n : Nat) :
    ∃ e, getR (resolveShader c n).cache .shaderProgram "shader" = some e ∧
      e.res = (resolveShader c n).id := by
  cases hs : getR c .shaderProgram "shader" with
  | some e => rw [resolveShader_hit n hs]; exact ⟨e, hs, rfl⟩
  | none => rw [resolveShader_miss n hs]; exact ⟨shaderEntry n, getR_shaderDelta_self n hs, rfl⟩

lemma resolveTex_ok_getR_self {i : Nat} (imp : String → Option ImageData2D) (pre : String)
    (c : List Entry) (n : Nat)
    (hok : (resolveCubeMapTexture imp pre c n).result = .ok i) :
    ∃ e, getR (resolveCubeMapTexture imp pre c n).cache .cubeMapTexture "texture" = some e ∧
      e.res = i := by
  cases ht : getR c .cubeMapTexture "texture" with
  | some e =>
    rw [resolveTex_hit imp pre n ht] at hok ⊢
    simp at hok
    exact ⟨e, ht, hok⟩
  | none =>
    cases hi : getR c .tgaImporter "tga-importer" with
    | none => rw [resolveTex_noImporter imp pre n ht hi] at hok; simp at hok
    | some ie =>
      by_cases hs : ie.state = .final
      · cases h0 : imp (pre ++ faceSuffix .px) with
        | none => rw [resolveTex_firstFaceFail imp pre n ht hi hs h0] at hok; simp at hok
        | some img =>
          rcases hrest : uploadFaces imp pre [.nx, .py, .ny, .pz, .nz] with ⟨t3, r3⟩
          cases r3 with
          | some err => rw [resolveTex_restFail imp pre n ht hi hs h0 hrest] at hok; simp at hok
          | none =>
            rw [resolveTex_ok imp pre n ht hi hs h0 hrest] at hok ⊢
            simp at hok
            exact ⟨textureEntry n, getR_texDelta_self n ht, by simp [textureEntry, hok]⟩
      · rw [resolveTex_importerNotFinal imp pre n ht hi hs] at hok; simp at hok

/-- After a successful construction, each of the three resolved keys has a
cached entry whose instance is exactly the handle the object retains. -/
lemma construct_ok_spec (imp : String → Option ImageData2D) (pre : String)
    (c : List Entry) (n : Nat) {d : CubeMap}
    (hok : (construct imp pre c n).result = .ok d) :
    (∃ e, getR (construct imp pre c n).cache .mesh "cube" = some e ∧ e.res = d.cube)
    ∧ (∃ e, getR (construct imp pre c n).cache .cubeMapTexture "texture" = some e ∧
        e.res = d.texture)
    ∧ (∃ e, getR (construct imp pre c n).cache .shaderProgram "shader" = some e ∧
        e.res = d.shader) := by
  rcases hT : resolveCubeMapTexture imp pre (resolveCubeMesh c n).cache
      (resolveCubeMesh c n).nextId with ⟨tres, tc, tn, tt⟩
  cases tres with
  | error e =>
    have hbad : (construct imp pre c n).result = .error e := by simp [construct, hT]
    rw [hbad] at hok
    simp at hok
  | ok texId =>
    have hC : construct imp pre c n =
        ⟨.ok ⟨(resolveCubeMesh c n).id, texId, (resolveShader tc tn).id⟩,
         (resolveShader tc tn).cache, (resolveShader tc tn).nextId,
         (resolveCubeMesh c n).trace ++ tt ++ (resolveShader tc tn).trace⟩ := by
      simp [construct, hT]
    rw [hC] at hok ⊢
    simp at hok
    have htc : (resolveCubeMapTexture imp pre (resolveCubeMesh c n).cache
        (resolveCubeMesh c n).nextId).cache = tc := by rw [hT]
    have htr : (resolveCubeMapTexture imp pre (resolveCubeMesh c n).cache
        (resolveCubeMesh c n).nextId).result = .ok texId := by rw [hT]
    refine ⟨?_, ?_, ?_⟩
    · obtain ⟨e, he, hres⟩ := resolveCubeMesh_getR_self c n
      refine ⟨e, ?_, by rw [hres, ← hok]⟩
      rw [resolveShader_getR_other tc tn "cube" (by simp),
        ← htc, resolveTex_getR_other imp pre _ _ "cube" (by simp), he]
    · obtain ⟨e, he, hres⟩ := resolveTex_ok_getR_self imp pre _ _ htr
      rw [htc] at he
      refine ⟨e, ?_, by rw [hres, ← hok]⟩
      rw [resolveShader_getR_other tc tn "texture" (by simp), he]
    · obtain ⟨e, he, hres⟩ := resolveShader_getR_self tc tn
      exact ⟨e, he, by rw [hres, ← hok]⟩

/-! ### Slot-count bounds: no stage ever duplicates a resolved slot -/

lemma resolveCubeMesh_slots (c : List Entry) (n : Nat)
    (h1 : slotCount c .mesh "cube" ≤ 1)
    (h2 : slotCount c .cubeMapTexture "texture" ≤ 1)
    (h3 : slotCount c .shaderProgram "shader" ≤ 1) :
    slotCount (resolveCubeMesh c n).cache .mesh "cube" ≤ 1 ∧
    slotCount (resolveCubeMesh c n).cache .cubeMapTexture "texture" ≤ 1 ∧
    slotCount (resolveCubeMesh c n).cache .shaderProgram "shader" ≤ 1 := by
  rcases resolveCubeMesh_cache_shape c n with h | ⟨h, hmiss⟩ <;> rw [h]
  · exact ⟨h1, h2, h3⟩
  · have h0 : slotCount c .mesh "cube" = 0 := getR_none_iff_slotCount.mp hmiss
    have e1 : slotCount [cubeBufferEntry n, cubeIndexBufferEntry n, cubeMeshEntry n]
        .mesh "cube" = 1 := rfl
    have e2 : slotCount [cubeBufferEntry n, cubeIndexBufferEntry n, cubeMeshEntry n]
        .cubeMapTexture "texture" = 0 := rfl
    have e3 : slotCount [cubeBufferEntry n, cubeIndexBufferEntry n, cubeMeshEntry n]
        .shaderProgram "shader" = 0 := rfl
    refine ⟨?_, ?_, ?_⟩ <;> rw [slotCount_append] <;> omega

lemma resolveTex_slots (imp : String → Option ImageData2D) (pre : String)
    (c : List Entry) (n : Nat)
    (h1 : slotCount c .mesh "cube" ≤ 1)
    (h2 : slotCount c .cubeMapTexture "texture" ≤ 1)
    (h3 : slotCount c .shaderProgram "shader" ≤ 1) :
    slotCount (resolveCubeMapTexture imp pre c n).cache .mesh "cube" ≤ 1 ∧
    slotCount (resolveCubeMapTexture imp pre c n).cache .cubeMapTexture "texture" ≤ 1 ∧
    slotCount (resolveCubeMapTexture imp pre c n).cache .shaderProgram "shader" ≤ 1 := by
  rcases resolveTex_cache_shape imp pre c n with h | ⟨h, hmiss⟩ <;> rw [h]
  · exact ⟨h1, h2, h3⟩
  · have h0 : slotCount c .cubeMapTexture "texture" = 0 := getR_none_iff_slotCount.mp hmiss
    have e1 : slotCount [textureEntry n] .mesh "cube" = 0 := rfl
    have e2 : slotCount [textureEntry n] .cubeMapTexture "texture" = 1 := rfl
    have e3 : slotCount [textureEntry n] .shaderProgram "shader" = 0 := rfl
    refine ⟨?_, ?_, ?_⟩ <;> rw [slotCount_append] <;> omega

lemma resolveShader_slots (c : List Entry) (n : Nat)
    (h1 : slotCount c .mesh "cube" ≤ 1)
    (h2 : slotCount c .cubeMapTexture "texture" ≤ 1)
    (h3 : slotCount c .shaderProgram "shader" ≤ 1) :
    slotCount (resolveShader c n).cache .mesh "cube" ≤ 1 ∧
    slotCount (resolveShader c n).cache .cubeMapTexture "texture" ≤ 1 ∧
    slotCount (resolveShader c n).cache .shaderProgram "shader" ≤ 1 := by
  rcases resolveShader_cache_shape c n with h | ⟨h, hmiss⟩ <;> rw [h]
  · exact ⟨h1, h2, h3⟩
  · have h0 : slotCount c .shaderProgram "shader" = 0 := getR_none_iff_slotCount.mp hmiss
    have e1 : slotCount [shaderEntry n] .mesh "cube" = 0 := rfl
    have e2 : slotCount [shaderEntry n] .cubeMapTexture "texture" = 0 := rfl
    have e3 : slotCount [shaderEntry n] .shaderProgram "shader" = 1 := rfl
    refine ⟨?_, ?_, ?_⟩ <;> rw [slotCount_append] <;> omega

/-- After construction, each resolved slot still has at most one entry. -/
lemma construct_slots (imp : String → Option ImageData2D) (pre : String)
    (c : List Entry) (n : Nat)
    (h1 : slotCount c .mesh "cube" ≤ 1)
    (h2 : slotCount c .cubeMapTexture "texture" ≤ 1)
    (h3 : slotCount c .shaderProgram "shader" ≤ 1) :
    slotCount (construct imp pre c n).cache .mesh "cube" ≤ 1 ∧
    slotCount (construct imp pre c n).cache .cubeMapTexture "texture" ≤ 1 ∧
    slotCount (construct imp pre c n).cache .shaderProgram "shader" ≤ 1 := by
  obtain ⟨m1, m2, m3⟩ := resolveCubeMesh_slots c n h1 h2 h3
  obtain ⟨t1, t2, t3⟩ := resolveTex_slots imp pre (resolveCubeMesh c n).cache
    (resolveCubeMesh c n).nextId m1 m2 m3
  rcases hT : resolveCubeMapTexture imp pre (resolveCubeMesh c n).cache
      (resolveCubeMesh c n).nextId with ⟨tres, tc, tn, tt⟩
  rw [hT] at t1 t2 t3
  simp only at t1 t2 t3
  cases tres with
  | error e =>
    have hc : (construct imp pre c n).cache = tc := by simp [construct, hT]
    rw [hc]
    exact ⟨t1, t2, t3⟩
  | ok texId =>
    obtain ⟨s1, s2, s3⟩ := resolveShader_slots tc tn t1 t2 t3
    have hc : (construct imp pre c n).cache = (resolveShader tc tn).cache := by
      simp [construct, hT]
    rw [hc]
    exact ⟨s1, s2, s3⟩

/-! ### Coherence: the cache after each phase is the trace's effect -/

lemma resolveCubeMesh_applyEvents (c : List Entry) (n : Nat) :
    applyEvents c (resolveCubeMesh c n).trace = (resolveCubeMesh c n).cache := by
  cases hm : getR c .mesh "cube" with
  | some e => rw [resolveCubeMesh_hit n hm]; rfl
  | none =>
    rw [resolveCubeMesh_miss n hm]
    simp [applyEv, setR, cubeBufferEntry, cubeIndexBufferEntry, cubeMeshEntry]

lemma resolveTex_applyEvents (imp : String → Option ImageData2D) (pre : String)
    (c : List Entry) (n : Nat) :
    applyEvents c (resolveCubeMapTexture imp pre c n).trace =
      (resolveCubeMapTexture imp pre c n).cache := by
  cases ht : getR c .cubeMapTexture "texture" with
  | some e => rw [resolveTex_hit imp pre n ht]; rfl
  | none =>
    cases hi : getR c .tgaImporter "tga-importer" with
    | none => rw [resolveTex_noImporter imp pre n ht hi]; rfl
    | some ie =>
      by_cases hs : ie.state = .final
      · cases h0 : imp (pre ++ faceSuffix .px) with
        | none => rw [resolveTex_firstFaceFail imp pre n ht hi hs h0]; rfl
        | some img =>
          rcases hrest : uploadFaces imp pre [.nx, .py, .ny, .pz, .nz] with ⟨t3, r3⟩
          have hfile : ∀ e ∈ t3, isFileOp e = true := by
            have hall := uploadFaces_fileOps imp pre [.nx, .py, .ny, .pz, .nz]
            rw [hrest] at hall
            exact hall
          cases r3 with
          | some err =>
            rw [resolveTex_restFail imp pre n ht hi hs h0 hrest]
            simp only
            rw [applyEvents_append]
            rw [applyEvents_of_fileOps hfile]
            simp [applyEv]
          | none =>
            rw [resolveTex_ok imp pre n ht hi hs h0 hrest]
            simp only
            rw [applyEvents_append, applyEvents_append]
            rw [show applyEvents c
                [Ev.getE .cubeMapTexture "texture" false,
                 Ev.getE .tgaImporter "tga-importer" true,
                 Ev.openFileE (pre ++ faceSuffix .px),
                 Ev.setStorageE (storageLevels img.width img.height) img.width img.height,
                 Ev.setSubImageE .px 0] = c from rfl]
            rw [applyEvents_of_fileOps hfile]
            simp [applyEv, setR, textureEntry]
      · rw [resolveTex_importerNotFinal imp pre n ht hi hs]; rfl

lemma resolveShader_applyEvents (c : List Entry) (n : Nat) :
    applyEvents c (resolveShader c n).trace = (resolveShader c n).cache := by
  cases hs : getR c .shaderProgram "shader" with
  | some e => rw [resolveShader_hit n hs]; rfl
  | none =>
    rw [resolveShader_miss n hs]
    simp [applyEv, setR, shaderEntry]

/-- The final cache of a construction is exactly the effect of its event
trace on the initial cache. -/
lemma construct_applyEvents (imp : String → Option ImageData2D) (pre : String)
    (c : List Entry) (n : Nat) :
    applyEvents c (construct imp pre c n).trace = (construct imp pre c n).cache := by
  have hmesh := resolveCubeMesh_applyEvents c n
  have htex := resolveTex_applyEvents imp pre (resolveCubeMesh c n).cache
    (resolveCubeMesh c n).nextId
  rcases hT : resolveCubeMapTexture imp pre (resolveCubeMesh c n).cache
      (resolveCubeMesh c n).nextId with ⟨tres, tc, tn, tt⟩
  rw [hT] at htex
  simp only at htex
  cases tres with
  | error e =>
    have hC : construct imp pre c n =
        ⟨.error e, tc, tn, (resolveCubeMesh c n).trace ++ tt⟩ := by
      simp [construct, hT]
    rw [hC]
    simp only
    rw [applyEvents_append, hmesh, htex]
  | ok texId =>
    have hsh := resolveShader_applyEvents tc tn
    have hC : construct imp pre c n =
        ⟨.ok ⟨(resolveCubeMesh c n).id, texId, (resolveShader tc tn).id⟩,
         (resolveShader tc tn).cache, (resolveShader tc tn).nextId,
         (resolveCubeMesh c n).trace ++ tt ++ (resolveShader tc tn).trace⟩ := by
      simp [construct, hT]
    rw [hC]
    simp only
    rw [applyEvents_append, applyEvents_append, hmesh, htex, hsh]

/-! ### Trace shapes -/

lemma resolveCubeMesh_trace_shape (c : List Entry) (n : Nat) :
    ((resolveCubeMesh c n).trace = [.getE .mesh "cube" true] ∧
      (∃ e, getR c .mesh "cube" = some e)) ∨
    ((resolveCubeMesh c n).trace =
        [.getE .mesh "cube" false,
         .setE .buffer "cube-buffer" (n + 1) .final .resident,
         .setE .buffer "cube-index-buffer" (n + 2) .final .resident,
         .setE .mesh "cube" n .final .resident] ∧
      getR c .mesh "cube" = none ∧ (resolveCubeMesh c n).id = n) := by
  cases hm : getR c .mesh "cube" with
  | some e => rw [resolveCubeMesh_hit n hm]; exact .inl ⟨rfl, e, rfl⟩
  | none => rw [resolveCubeMesh_miss n hm]; exact .inr ⟨rfl, rfl, rfl⟩

lemma resolveShader_trace_shape (c : List Entry) (n : Nat) :
    ((resolveShader c n).trace = [.getE .shaderProgram "shader" true] ∧
      (∃ e, getR c .shaderProgram "shader" = some e)) ∨
    ((resolveShader c n).trace =
        [.getE .shaderProgram "shader" false,
         .setE .shaderProgram "shader" n .final .manual] ∧
      getR c .shaderProgram "shader" = none ∧ (resolveShader c n).id = n) := by
  cases hs : getR c .shaderProgram "shader" with
  | some e => rw [resolveShader_hit n hs]; exact .inl ⟨rfl, e, rfl⟩
  | none => rw [resolveShader_miss n hs]; exact .inr ⟨rfl, rfl, rfl⟩

/-- A successful construction whose texture key was a cache miss went
through the full face-loading path: the importer was present and Final,
the +x face decoded, the remaining faces decoded, the retained texture
handle is the freshly allocated instance, and the overall trace is the
mesh-stage trace, the explicit texture-stage trace, and the shader-stage
trace in order. -/
lemma construct_tex_ok_cases (imp : String → Option ImageData2D) (pre : String)
    (c : List Entry) (n : Nat) {d : CubeMap}
    (hok : (construct imp pre c n).result = .ok d)
    (ht : getR c .cubeMapTexture "texture" = none) :
    ∃ ie img t3,
      getR c .tgaImporter "tga-importer" = some ie ∧
      ie.state = .final ∧
      imp (pre ++ faceSuffix .px) = some img ∧
      uploadFaces imp pre [.nx, .py, .ny, .pz, .nz] = (t3, none) ∧
      (∀ e ∈ t3, isFileOp e = true) ∧
      d.cube = (resolveCubeMesh c n).id ∧
      d.texture = (resolveCubeMesh c n).nextId ∧
      (construct imp pre c n).trace =
        (resolveCubeMesh c n).trace ++
        (([.getE .cubeMapTexture "texture" false,
           .getE .tgaImporter "tga-importer" true,
           .openFileE (pre ++ faceSuffix .px),
           .setStorageE (storageLevels img.width img.height) img.width img.height,
           .setSubImageE .px 0] ++ t3) ++
         [.generateMipmapE,
          .setE .cubeMapTexture "texture" d.texture .final .manual]) ++
        (resolveShader ((resolveCubeMesh c n).cache ++ [textureEntry d.texture])
          ((resolveCubeMesh c n).nextId + 1)).trace := by
  have htm : getR (resolveCubeMesh c n).cache .cubeMapTexture "texture" = none := by
    rw [resolveCubeMesh_getR_other c n "texture" (by simp)]
    exact ht
  have him : getR (resolveCubeMesh c n).cache .tgaImporter "tga-importer" =
      getR c .tgaImporter "tga-importer" :=
    resolveCubeMesh_getR_other c n "tga-importer" (by simp)
  cases hi : getR (resolveCubeMesh c n).cache .tgaImporter "tga-importer" with
  | none =>
    have hbad : (construct imp pre c n).result = .error .importerUnavailable := by
      simp [construct,
        resolveTex_noImporter imp pre (resolveCubeMesh c n).nextId htm hi]
    rw [hbad] at hok
    simp at hok
  | some ie =>
    by_cases hs : ie.state = .final
    · cases h0 : imp (pre ++ faceSuffix .px) with
      | none =>
        have hbad : (construct imp pre c n).result = .error (.decodeError
            (pre ++ faceSuffix .px)) := by
          simp [construct,
            resolveTex_firstFaceFail imp pre (resolveCubeMesh c n).nextId htm hi hs h0]
        rw [hbad] at hok
        simp at hok
      | some img =>
        rcases hrest : uploadFaces imp pre [.nx, .py, .ny, .pz, .nz] with ⟨t3, r3⟩
        cases r3 with
        | some err =>
          have hbad : (construct imp pre c n).result = .error err := by
            simp [construct,
              resolveTex_restFail imp pre (resolveCubeMesh c n).nextId htm hi hs h0 hrest]
          rw [hbad] at hok
          simp at hok
        | none =>
          have hfile : ∀ e ∈ t3, isFileOp e = true := by
            have hall := uploadFaces_fileOps imp pre [.nx, .py, .ny, .pz, .nz]
            rw [hrest] at hall
            exact hall
          have hTex := resolveTex_ok imp pre (resolveCubeMesh c n).nextId htm hi hs h0 hrest
          have hC : construct imp pre c n =
              ⟨.ok ⟨(resolveCubeMesh c n).id, (resolveCubeMesh c n).nextId,
                  (resolveShader ((resolveCubeMesh c n).cache
                    ++ [textureEntry (resolveCubeMesh c n).nextId])
                    ((resolveCubeMesh c n).nextId + 1)).id⟩,
               (resolveShader ((resolveCubeMesh c n).cache
                  ++ [textureEntry (resolveCubeMesh c n).nextId])
                  ((resolveCubeMesh c n).nextId + 1)).cache,
               (resolveShader ((resolveCubeMesh c n).cache
                  ++ [textureEntry (resolveCubeMesh c n).nextId])
                  ((resolveCubeMesh c n).nextId + 1)).nextId,
               (resolveCubeMesh c n).trace ++
                 (([.getE .cubeMapTexture "texture" false,
                    .getE .tgaImporter "tga-importer" true,
                    .openFileE (pre ++ faceSuffix .px),
                    .setStorageE (storageLevels img.width img.height) img.width img.height,
                    .setSubImageE .px 0] ++ t3) ++
                  [.generateMipmapE,
                   .setE .cubeMapTexture "texture" (resolveCubeMesh c n).nextId
                     .final .manual]) ++
                 (resolveShader ((resolveCubeMesh c n).cache
                    ++ [textureEntry (resolveCubeMesh c n).nextId])
                    ((resolveCubeMesh c n).nextId + 1)).trace⟩ := by
            simp [construct, hTex]
          rw [hC] at hok
          simp at hok
          refine ⟨ie, img, t3, by rw [← him, hi], hs, rfl, rfl, hfile, ?_, ?_, ?_⟩
          · rw [← hok]
          · rw [← hok]
          · rw [hC]
            simp only
            rw [← hok]
    · have hbad : (construct imp pre c n).result = .error .importerUnavailable := by
        simp [construct,
          resolveTex_importerNotFinal imp pre (resolveCubeMesh c n).nextId htm hi hs]
      rw [hbad] at hok
      simp at hok

/-! ### Projections distribute over trace concatenation -/

lemma opsFor_append (k : Kind) (key : String) (t1 t2 : List Ev) :
    opsFor k key (t1 ++ t2) = opsFor k key t1 ++ opsFor k key t2 :=
  List.filter_append ..

lemma setsOf_append (t1 t2 : List Ev) :
    setsOf (t1 ++ t2) = setsOf t1 ++ setsOf t2 :=
  List.filterMap_append ..

lemma texOps_append (t1 t2 : List Ev) :
    texOps (t1 ++ t2) = texOps t1 ++ texOps t2 :=
  List.filter_append ..

lemma storageOps_append (t1 t2 : List Ev) :
    storageOps (t1 ++ t2) = storageOps t1 ++ storageOps t2 :=
  List.filter_append ..

lemma setCount_append (t1 t2 : List Ev) (k : Kind) (key : String) :
    setCount (t1 ++ t2) k key = setCount t1 k key + setCount t2 k key := by
  rw [setCount, setCount, setCount, List.filter_append, List.length_append]

/-! ### Cache-operation kinds per stage -/

/-- The kind a cache operation addresses, if the event is one. -/
def cacheKind : Ev → Option Kind
  | .getE k _ _ => some k
  | .setE k _ _ _ _ => some k
  | _ => none

lemma opsFor_nil_of_cacheKind {t : List Ev} {k : Kind} (key : String)
    (h : ∀ e ∈ t, cacheKind e ≠ some k) : opsFor k key t = [] := by
  rw [opsFor, List.filter_eq_nil_iff]
  intro e he
  have h2 := h e he
  cases e <;> simp_all [cacheKind, isOpFor]

lemma resolveCubeMesh_cacheKinds (c : List Entry) (n : Nat) :
    ∀ e ∈ (resolveCubeMesh c n).trace,
      cacheKind e = some .mesh ∨ cacheKind e = some .buffer := by
  rcases resolveCubeMesh_trace_shape c n with ⟨hmt, -⟩ | ⟨hmt, -, -⟩ <;>
    rw [hmt] <;> intro e he <;> simp at he
  · simp [he, cacheKind]
  · rcases he with rfl | rfl | rfl | rfl <;> simp [cacheKind]

lemma resolveShader_cacheKinds (c : List Entry) (n : Nat) :
    ∀ e ∈ (resolveShader c n).trace, cacheKind e = some .shaderProgram := by
  rcases resolveShader_trace_shape c n with ⟨hst, -⟩ | ⟨hst, -, -⟩ <;>
    rw [hst] <;> intro e he <;> simp at he
  · simp [he, cacheKind]
  · rcases he with rfl | rfl <;> simp [cacheKind]

lemma resolveTex_cacheKinds (imp : String → Option ImageData2D) (pre : String)
    (c : List Entry) (n : Nat) :
    ∀ e ∈ (resolveCubeMapTexture imp pre c n).trace,
      cacheKind e = none ∨ cacheKind e = some .cubeMapTexture ∨
        cacheKind e = some .tgaImporter := by
  cases ht : getR c .cubeMapTexture "texture" with
  | some e0 =>
    rw [resolveTex_hit imp pre n ht]
    intro e he
    simp at he
    simp [he, cacheKind]
  | none =>
    cases hi : getR c .tgaImporter "tga-importer" with
    | none =>
      rw [resolveTex_noImporter imp pre n ht hi]
      intro e he
      simp at he
      rcases he with rfl | rfl <;> simp [cacheKind]
    | some ie =>
      by_cases hs : ie.state = .final
      · cases h0 : imp (pre ++ faceSuffix .px) with
        | none =>
          rw [resolveTex_firstFaceFail imp pre n ht hi hs h0]
          intro e he
          simp at he
          rcases he with rfl | rfl | rfl <;> simp [cacheKind]
        | some img =>
          rcases hrest : uploadFaces imp pre [.nx, .py, .ny, .pz, .nz] with ⟨t3, r3⟩
          have hfile : ∀ e ∈ t3, isFileOp e = true := by
            have hall := uploadFaces_fileOps imp pre [.nx, .py, .ny, .pz, .nz]
            rw [hrest] at hall
            exact hall
          cases r3 with
          | some err =>
            rw [resolveTex_restFail imp pre n ht hi hs h0 hrest]
            intro e he
            simp at he
            rcases he with rfl | rfl | rfl | rfl | rfl | he
            · simp [cacheKind]
            · simp [cacheKind]
            · simp [cacheKind]
            · simp [cacheKind]
            · simp [cacheKind]
            · have hq := hfile e he
              cases e <;> simp_all [isFileOp, cacheKind]
          | none =>
            rw [resolveTex_ok imp pre n ht hi hs h0 hrest]
            intro e he
            simp at he
            rcases he with rfl | rfl | rfl | rfl | rfl | he | rfl | rfl <;>
              first
                | (have hq := hfile e he; cases e <;> simp_all [isFileOp, cacheKind])
                | simp [cacheKind]
      · rw [resolveTex_importerNotFinal imp pre n ht hi hs]
        intro e he
        simp at he
        rcases he with rfl | rfl <;> simp [cacheKind]

/-- The constructor's trace is the mesh-stage trace, then the
texture-stage trace, then (when the texture stage succeeded) the
shader-stage trace. -/
lemma construct_trace_shape (imp : String → Option ImageData2D) (pre : String)
    (c : List Entry) (n : Nat) :
    ∃ rest,
      (construct imp pre c n).trace =
        (resolveCubeMesh c n).trace ++
        (resolveCubeMapTexture imp pre (resolveCubeMesh c n).cache
          (resolveCubeMesh c n).nextId).trace ++ rest ∧
      ((rest = [] ∧ ∃ e, (construct imp pre c n).result = .error e) ∨
        rest = (resolveShader
          (resolveCubeMapTexture imp pre (resolveCubeMesh c n).cache
            (resolveCubeMesh c n).nextId).cache
          (resolveCubeMapTexture imp pre (resolveCubeMesh c n).cache
            (resolveCubeMesh c n).nextId).nextId).trace) := by
  rcases hT : resolveCubeMapTexture imp pre (resolveCubeMesh c n).cache
      (resolveCubeMesh c n).nextId with ⟨tres, tc, tn, tt⟩
  cases tres with
  | error e =>
    refine ⟨[], ?_, .inl ⟨rfl, e, by simp [construct, hT]⟩⟩
    simp [construct, hT]
  | ok texId =>
    refine ⟨(resolveShader tc tn).trace, ?_, .inr (by simp [hT])⟩
    simp [construct, hT]

/-- A successful construction retains the mesh-stage id, the texture-stage
id and the shader-stage id. -/
lemma construct_ok_components (imp : String → Option ImageData2D) (pre : String)
    (c : List Entry) (n : Nat) {d : CubeMap}
    (hok : (construct imp pre c n).result = .ok d) :
    d.cube = (resolveCubeMesh c n).id ∧
    (resolveCubeMapTexture imp pre (resolveCubeMesh c n).cache
      (resolveCubeMesh c n).nextId).result = .ok d.texture ∧
    d.shader = (resolveShader
      (resolveCubeMapTexture imp pre (resolveCubeMesh c n).cache
        (resolveCubeMesh c n).nextId).cache
      (resolveCubeMapTexture imp pre (resolveCubeMesh c n).cache
        (resolveCubeMesh c n).nextId).nextId).id := by
  rcases hT : resolveCubeMapTexture imp pre (resolveCubeMesh c n).cache
      (resolveCubeMesh c n).nextId with ⟨tres, tc, tn, tt⟩
  cases tres with
  | error e =>
    have hbad : (construct imp pre c n).result = .error e := by simp [construct, hT]
    rw [hbad] at hok
    simp at hok
  | ok texId =>
    have hC : (construct imp pre c n).result =
        .ok ⟨(resolveCubeMesh c n).id, texId, (resolveShader tc tn).id⟩ := by
      simp [construct, hT]
    rw [hC] at hok
    simp at hok
    rw [← hok]
    simp

/-! ### Registration shapes -/

lemma resolveCubeMesh_setsOf (c : List Entry) (n : Nat) :
    (setsOf (resolveCubeMesh c n).trace =
        [(.buffer, "cube-buffer", .resident), (.buffer, "cube-index-buffer", .resident),
         (.mesh, "cube", .resident)] ∧ getR c .mesh "cube" = none) ∨
    (setsOf (resolveCubeMesh c n).trace = [] ∧ ∃ e, getR c .mesh "cube" = some e) := by
  rcases resolveCubeMesh_trace_shape c n with ⟨hmt, he⟩ | ⟨hmt, hm, -⟩
  · right
    rw [hmt]
    exact ⟨rfl, he⟩
  · left
    rw [hmt]
    exact ⟨rfl, hm⟩

lemma resolveShader_setsOf (c : List Entry) (n : Nat) :
    setsOf (resolveShader c n).trace = [] ∨
    setsOf (resolveShader c n).trace = [(.shaderProgram, "shader", .manual)] := by
  rcases resolveShader_trace_shape c n with ⟨hst, -⟩ | ⟨hst, -, -⟩ <;> rw [hst]
  · exact .inl rfl
  · exact .inr rfl

lemma resolveTex_setsOf (imp : String → Option ImageData2D) (pre : String)
    (c : List Entry) (n : Nat) :
    setsOf (resolveCubeMapTexture imp pre c n).trace = [] ∨
    setsOf (resolveCubeMapTexture imp pre c n).trace =
      [(.cubeMapTexture, "texture", .manual)] := by
  cases ht : getR c .cubeMapTexture "texture" with
  | some e => rw [resolveTex_hit imp pre n ht]; exact .inl rfl
  | none =>
    cases hi : getR c .tgaImporter "tga-importer" with
    | none => rw [resolveTex_noImporter imp pre n ht hi]; exact .inl rfl
    | some ie =>
      by_cases hs : ie.state = .final
      · cases h0 : imp (pre ++ faceSuffix .px) with
        | none => rw [resolveTex_firstFaceFail imp pre n ht hi hs h0]; exact .inl rfl
        | some img =>
          rcases hrest : uploadFaces imp pre [.nx, .py, .ny, .pz, .nz] with ⟨t3, r3⟩
          have hfile : ∀ e ∈ t3, isFileOp e = true := by
            have hall := uploadFaces_fileOps imp pre [.nx, .py, .ny, .pz, .nz]
            rw [hrest] at hall
            exact hall
          have h3 : setsOf t3 = [] := setsOf_of_fileOps hfile
          cases r3 with
          | some err =>
            rw [resolveTex_restFail imp pre n ht hi hs h0 hrest]
            left
            simp only [setsOf_append]
            rw [h3]
            rfl
          | none =>
            rw [resolveTex_ok imp pre n ht hi hs h0 hrest]
            right
            simp only [setsOf_append]
            rw [h3]
            rfl
      · rw [resolveTex_importerNotFinal imp pre n ht hi hs]; exact .inl rfl

/-- Every registration the constructor performs, in order: possibly the
three mesh-stage entries (exactly when the mesh key missed), then possibly
the texture entry, then possibly the shader entry. -/
lemma construct_setsOf_cases (imp : String → Option ImageData2D) (pre : String)
    (c : List Entry) (n : Nat) :
    ∃ sm stx ssh,
      setsOf (construct imp pre c n).trace = sm ++ stx ++ ssh ∧
      ((sm = [(.buffer, "cube-buffer", .resident),
              (.buffer, "cube-index-buffer", .resident),
              (.mesh, "cube", .resident)] ∧ getR c .mesh "cube" = none) ∨
        (sm = [] ∧ ∃ e, getR c .mesh "cube" = some e)) ∧
      (stx = [] ∨ stx = [(.cubeMapTexture, "texture", .manual)]) ∧
      (ssh = [] ∨ ssh = [(.shaderProgram, "shader", .manual)]) := by
  obtain ⟨rest, htr, hrest⟩ := construct_trace_shape imp pre c n
  refine ⟨setsOf (resolveCubeMesh c n).trace,
    setsOf (resolveCubeMapTexture imp pre (resolveCubeMesh c n).cache
      (resolveCubeMesh c n).nextId).trace,
    setsOf rest, ?_, resolveCubeMesh_setsOf c n, resolveTex_setsOf imp pre _ _, ?_⟩
  · rw [htr, setsOf_append, setsOf_append]
  · rcases hrest with ⟨rfl, -⟩ | hr
    · exact .inl rfl
    · rw [hr]
      exact resolveShader_setsOf _ _

/-- If some face in the list fails to decode, the upload loop fails with a
decode error for a path that indeed fails to decode. -/
lemma uploadFaces_fail (imp : String → Option ImageData2D) (pre : String) :
    ∀ fs : List Face, (∃ f ∈ fs, imp (pre ++ faceSuffix f) = none) →
      ∃ t p, uploadFaces imp pre fs = (t, some (.decodeError p)) ∧ imp p = none := by
  intro fs
  induction fs with
  | nil => rintro ⟨f, hf, -⟩; simp at hf
  | cons f fs ih =>
    rintro ⟨f2, hf2, hfail⟩
    cases himg : imp (pre ++ faceSuffix f) with
    | none =>
      refine ⟨[.openFileE (pre ++ faceSuffix f)], pre ++ faceSuffix f, ?_, himg⟩
      simp [uploadFaces, faceUpload, himg]
    | some img =>
      have hf3 : f2 ∈ fs := by
        rcases List.mem_cons.mp hf2 with rfl | h
        · rw [himg] at hfail; cases hfail
        · exact h
      obtain ⟨t2, p, h2, hp⟩ := ih ⟨f2, hf3, hfail⟩
      refine ⟨[.openFileE (pre ++ faceSuffix f), .setSubImageE f 0] ++ t2, p, ?_, hp⟩
      simp [uploadFaces, faceUpload, himg, h2]

lemma resolveCubeMesh_opsFor_nil {k : Kind} (c : List Entry) (n : Nat) (key : String)
    (h1 : k ≠ .mesh) (h2 : k ≠ .buffer) :
    opsFor k key (resolveCubeMesh c n).trace = [] := by
  refine opsFor_nil_of_cacheKind key ?_
  intro e he
  rcases resolveCubeMesh_cacheKinds c n e he with h | h <;> rw [h] <;>
    intro hh <;> simp at hh
  · exact h1 hh.symm
  · exact h2 hh.symm

lemma resolveTex_opsFor_nil {k : Kind} (imp : String → Option ImageData2D)
    (pre : String) (c : List Entry) (n : Nat) (key : String)
    (h1 : k ≠ .cubeMapTexture) (h2 : k ≠ .tgaImporter) :
    opsFor k key (resolveCubeMapTexture imp pre c n).trace = [] := by
  refine opsFor_nil_of_cacheKind key ?_
  intro e he
  rcases resolveTex_cacheKinds imp pre c n e he with h | h | h <;> rw [h] <;>
    intro hh <;> simp at hh
  · exact h1 hh.symm
  · exact h2 hh.symm

lemma resolveShader_opsFor_nil {k : Kind} (c : List Entry) (n : Nat) (key : String)
    (h1 : k ≠ .shaderProgram) :
    opsFor k key (resolveShader c n).trace = [] := by
  refine opsFor_nil_of_cacheKind key ?_
  intro e he
  rw [resolveShader_cacheKinds c n e he]
  intro hh
  simp at hh
  exact h1 hh.symm

/-! ### The claims -/

/-- Witness matrix with a single 1 in row 0, column 1. -/
def e01 : Mat4 := fun i j => if i = 0 ∧ j = 1 then 1 else 0

/-- Witness matrix with a single 1 in row 1, column 0. -/
def e10 : Mat4 := fun i j => if i = 1 ∧ j = 0 then 1 else 0

/-- C4: for every object and every camera projection matrix and object
transformation matrix, `draw` uploads exactly the product
`projection * transformation` — in that order, which matters since `mul4`
is not commutative — as the shader's transformation-projection uniform,
and does so before issuing the mesh draw call: the draw trace is exactly
the uniform upload, the shader use, the texture bind and the mesh draw. -/
theorem c4_draw_uploads_camera_times_world (o : CubeMap) (cam world : Mat4) :
    uploadedUniform (draw o cam world) = some (mul4 cam world) ∧
    draw o cam world =
      [.setUniformE o.shader (mul4 cam world), .useShaderE o.shader,
       .bindTextureE o.texture textureLayer, .drawMeshE o.cube] ∧
    mul4 e01 e10 ≠ mul4 e10 e01 :=
  ⟨rfl, rfl, by decide⟩

/-- C8: `draw` never touches the cache — applying its event trace to any
cache state is the identity and it contains no get/set operation — and it
dereferences only the three handles retained at construction, so it can
run every frame without re-resolving resources. -/
theorem c8_draw_does_not_mutate_cache (o : CubeMap) (cam world : Mat4)
    (c : List Entry) :
    applyEvents c (draw o cam world) = c ∧
    (draw o cam world).filter isCacheOp = [] ∧
    ∀ h ∈ usedHandles (draw o cam world), h = o.cube ∨ h = o.texture ∨ h = o.shader := by
  refine ⟨rfl, rfl, ?_⟩
  intro h hh
  simp [usedHandles, draw, handleProj] at hh
  tauto

/-- C5: on a construction whose texture key is a cache miss and which
succeeds, texture storage is allocated exactly once, with the first (+x)
face's image size as the storage dimensions and with mip level count
`floor(log2(min(width, height))) + 1`; in particular 256×256 faces give
exactly 9 mip levels. -/
theorem c5_storage_from_first_face
    (imp : String → Option ImageData2D) (pre : String)
    (c : List Entry) (n : Nat) (img : ImageData2D) (d : CubeMap)
    (ht : getR c .cubeMapTexture "texture" = none)
    (h0 : imp (pre ++ faceSuffix .px) = some img)
    (hok : (construct imp pre c n).result = .ok d) :
    storageOps (construct imp pre c n).trace =
      [.setStorageE (storageLevels img.width img.height) img.width img.height] ∧
    storageLevels img.width img.height = Nat.log2 (min img.width img.height) + 1 ∧
    storageLevels 256 256 = 9 := by
  obtain ⟨ie, img2, t3, hie, hfin, h02, hrest, hfile, hcube, htex, htr⟩ :=
    construct_tex_ok_cases imp pre c n hok ht
  rw [h0] at h02
  have himg : img = img2 := by injection h02
  subst himg
  refine ⟨?_, rfl, by simp [storageLevels, Nat.log2]⟩
  have h3 : storageOps t3 = [] := storageOps_of_fileOps hfile
  rcases resolveCubeMesh_trace_shape c n with ⟨hmt, -⟩ | ⟨hmt, -, -⟩ <;>
    rcases resolveShader_trace_shape ((resolveCubeMesh c n).cache
        ++ [textureEntry d.texture]) ((resolveCubeMesh c n).nextId + 1) with
      ⟨hst, -⟩ | ⟨hst, -, -⟩ <;>
    rw [htr, hmt, hst] <;>
    simp only [storageOps_append] <;>
    rw [h3] <;>
    rfl

/-- C6: on a construction whose texture key is a cache miss and which
succeeds, the six faces are uploaded in the fixed order +X, −X, +Y, −Y,
+Z, −Z, each into mip level 0, and mipmaps are generated exactly once,
after all six uploads: the texture-operation projection of the whole
constructor trace is exactly the six uploads followed by one mipmap
generation. -/
theorem c6_face_order_and_single_mipmap_pass
    (imp : String → Option ImageData2D) (pre : String)
    (c : List Entry) (n : Nat) (d : CubeMap)
    (ht : getR c .cubeMapTexture "texture" = none)
    (hok : (construct imp pre c n).result = .ok d) :
    texOps (construct imp pre c n).trace =
      (faceOrder.map fun f => Ev.setSubImageE f 0) ++ [Ev.generateMipmapE] := by
  obtain ⟨ie, img, t3, hie, hfin, h0, hrest, hfile, hcube, htex, htr⟩ :=
    construct_tex_ok_cases imp pre c n hok ht
  have h6 := uploadFaces_ok_texOps imp pre [.nx, .py, .ny, .pz, .nz] t3 hrest
  rcases resolveCubeMesh_trace_shape c n with ⟨hmt, -⟩ | ⟨hmt, -, -⟩ <;>
    rcases resolveShader_trace_shape ((resolveCubeMesh c n).cache
        ++ [textureEntry d.texture]) ((resolveCubeMesh c n).nextId + 1) with
      ⟨hst, -⟩ | ⟨hst, -, -⟩ <;>
    rw [htr, hmt, hst] <;>
    simp only [texOps_append] <;>
    rw [h6] <;>
    rfl

/-- C7: every registration the constructor ever performs uses the policy
fixed by its sharing semantics: mesh-geometry entries (the mesh and its
two buffers) are Resident, while the cube-map texture entry and the shader
entry are Manual; no entry of importer kind is ever registered. -/
theorem c7_policy_by_sharing_semantics (imp : String → Option ImageData2D)
    (pre : String) (c : List Entry) (n : Nat)
    (x : Kind × String × ResourcePolicy)
    (hx : x ∈ setsOf (construct imp pre c n).trace) :
    ((x.1 = .mesh ∨ x.1 = .buffer) → x.2.2 = .resident) ∧
    ((x.1 = .cubeMapTexture ∨ x.1 = .shaderProgram) → x.2.2 = .manual) ∧
    x.1 ≠ .tgaImporter := by
  obtain ⟨sm, stx, ssh, heq, hm, ht, hs⟩ := construct_setsOf_cases imp pre c n
  rw [heq] at hx
  rcases List.mem_append.mp hx with hx2 | hx3
  · rcases List.mem_append.mp hx2 with hxm | hxt
    · rcases hm with ⟨rfl, -⟩ | ⟨rfl, -⟩
      · simp at hxm
        rcases hxm with rfl | rfl | rfl <;> simp
      · simp at hxm
    · rcases ht with rfl | rfl
      · simp at hxt
      · simp at hxt
        subst hxt
        simp
  · rcases hs with rfl | rfl
    · simp at hx3
    · simp at hx3
      subst hx3
      simp

/-- C9: when the mesh key "cube" is a cache miss, construction also
registers the two Resident buffer entries "cube-buffer" and
"cube-index-buffer", in that order and both before the mesh entry itself,
each exactly once; on a mesh cache hit neither buffer entry is created. -/
theorem c9_buffer_entries_with_mesh (imp : String → Option ImageData2D)
    (pre : String) (c : List Entry) (n : Nat) :
    (getR c .mesh "cube" = none →
      (setsOf (construct imp pre c n).trace).take 3 =
        [(.buffer, "cube-buffer", .resident), (.buffer, "cube-index-buffer", .resident),
         (.mesh, "cube", .resident)] ∧
      opsFor .buffer "cube-buffer" (construct imp pre c n).trace =
        [.setE .buffer "cube-buffer" (n + 1) .final .resident] ∧
      opsFor .buffer "cube-index-buffer" (construct imp pre c n).trace =
        [.setE .buffer "cube-index-buffer" (n + 2) .final .resident]) ∧
    (∀ e, getR c .mesh "cube" = some e →
      opsFor .buffer "cube-buffer" (construct imp pre c n).trace = [] ∧
      opsFor .buffer "cube-index-buffer" (construct imp pre c n).trace = []) := by
  obtain ⟨rest, htr, hrest⟩ := construct_trace_shape imp pre c n
  have htexNil : ∀ key, opsFor .buffer key
      (resolveCubeMapTexture imp pre (resolveCubeMesh c n).cache
        (resolveCubeMesh c n).nextId).trace = [] := by
    intro key
    refine opsFor_nil_of_cacheKind key ?_
    intro e he
    rcases resolveTex_cacheKinds imp pre _ _ e he with h | h | h <;> simp [h]
  have hrestNil : ∀ key, opsFor .buffer key rest = [] := by
    intro key
    rcases hrest with ⟨rfl, -⟩ | hr
    · rfl
    · rw [hr]
      refine opsFor_nil_of_cacheKind key ?_
      intro e he
      have h2 := resolveShader_cacheKinds _ _ e he
      simp [h2]
  constructor
  · intro hm
    refine ⟨?_, ?_, ?_⟩
    · obtain ⟨smq, stx, ssh, heq, hmq, ht2, hs2⟩ := construct_setsOf_cases imp pre c n
      rcases hmq with ⟨rfl, -⟩ | ⟨-, e, he⟩
      · rw [heq]
        simp
      · rw [hm] at he; cases he
    · rw [htr, opsFor_append, opsFor_append, htexNil, hrestNil,
        resolveCubeMesh_miss n hm]
      rfl
    · rw [htr, opsFor_append, opsFor_append, htexNil, hrestNil,
        resolveCubeMesh_miss n hm]
      rfl
  · intro e hm
    constructor <;>
      rw [htr, opsFor_append, opsFor_append, htexNil, hrestNil,
        resolveCubeMesh_hit n hm] <;>
      rfl

/-- C10: the constructor never registers anything of importer kind; when
the texture key is a cache miss, a successful construction requires a
pre-registered Final "tga-importer" entry and obtains it via a cache hit;
and when the texture key misses while "tga-importer" is absent,
construction fails with `importerUnavailable`. -/
theorem c10_importer_only_obtained (imp : String → Option ImageData2D)
    (pre : String) (c : List Entry) (n : Nat) :
    (∀ x ∈ setsOf (construct imp pre c n).trace, x.1 ≠ .tgaImporter) ∧
    (∀ d : CubeMap, (construct imp pre c n).result = .ok d →
      getR c .cubeMapTexture "texture" = none →
      ∃ ie, getR c .tgaImporter "tga-importer" = some ie ∧ ie.state = .final ∧
        Ev.getE .tgaImporter "tga-importer" true ∈ (construct imp pre c n).trace) ∧
    (getR c .cubeMapTexture "texture" = none →
      getR c .tgaImporter "tga-importer" = none →
      (construct imp pre c n).result = .error .importerUnavailable) := by
  refine ⟨?_, ?_, ?_⟩
  · intro x hx
    exact (c7_policy_by_sharing_semantics imp pre c n x hx).2.2
  · intro d hok ht
    obtain ⟨ie, img, t3, hie, hfin, h0, hrest, hfile, hcube, htex, htr⟩ :=
      construct_tex_ok_cases imp pre c n hok ht
    refine ⟨ie, hie, hfin, ?_⟩
    rw [htr]
    simp
  · intro ht hi
    have htm : getR (resolveCubeMesh c n).cache .cubeMapTexture "texture" = none := by
      rw [resolveCubeMesh_getR_other c n "texture" (by simp)]
      exact ht
    have him : getR (resolveCubeMesh c n).cache .tgaImporter "tga-importer" = none := by
      rw [resolveCubeMesh_getR_other c n "tga-importer" (by simp)]
      exact hi
    simp [construct, resolveTex_noImporter imp pre (resolveCubeMesh c n).nextId htm him]

/-- C2: for each required resource key, a successful construction first
queries the cache: on a hit the projection of the trace onto that slot's
cache operations is exactly one hit lookup (never a `set`) and the
retained handle is the cached instance; on a miss it is exactly one miss
lookup followed by exactly one registration of the freshly built resource,
whose instance is the retained handle. -/
theorem c2_get_first_set_only_on_miss (imp : String → Option ImageData2D)
    (pre : String) (c : List Entry) (n : Nat) (d : CubeMap)
    (hok : (construct imp pre c n).result = .ok d) :
    (∀ e, getR c .mesh "cube" = some e →
      opsFor .mesh "cube" (construct imp pre c n).trace = [.getE .mesh "cube" true] ∧
      d.cube = e.res) ∧
    (getR c .mesh "cube" = none →
      opsFor .mesh "cube" (construct imp pre c n).trace =
        [.getE .mesh "cube" false, .setE .mesh "cube" d.cube .final .resident]) ∧
    (∀ e, getR c .cubeMapTexture "texture" = some e →
      opsFor .cubeMapTexture "texture" (construct imp pre c n).trace =
        [.getE .cubeMapTexture "texture" true] ∧
      d.texture = e.res) ∧
    (getR c .cubeMapTexture "texture" = none →
      opsFor .cubeMapTexture "texture" (construct imp pre c n).trace =
        [.getE .cubeMapTexture "texture" false,
         .setE .cubeMapTexture "texture" d.texture .final .manual]) ∧
    (∀ e, getR c .shaderProgram "shader" = some e →
      opsFor .shaderProgram "shader" (construct imp pre c n).trace =
        [.getE .shaderProgram "shader" true] ∧
      d.shader = e.res) ∧
    (getR c .shaderProgram "shader" = none →
      opsFor .shaderProgram "shader" (construct imp pre c n).trace =
        [.getE .shaderProgram "shader" false,
         .setE .shaderProgram "shader" d.shader .final .manual]) := by
  obtain ⟨rest, htr, hrestd⟩ := construct_trace_shape imp pre c n
  obtain ⟨hdc, hdt, hds⟩ := construct_ok_components imp pre c n hok
  have hrest : rest = (resolveShader
      (resolveCubeMapTexture imp pre (resolveCubeMesh c n).cache
        (resolveCubeMesh c n).nextId).cache
      (resolveCubeMapTexture imp pre (resolveCubeMesh c n).cache
        (resolveCubeMesh c n).nextId).nextId).trace := by
    rcases hrestd with ⟨-, e, herr⟩ | hr
    · have hbad := herr.symm.trans hok
      simp at hbad
    · exact hr
  refine ⟨?_, ?_, ?_, ?_, ?_, ?_⟩
  · intro e he
    have hmesh := resolveCubeMesh_hit n he
    constructor
    · rw [htr, opsFor_append, opsFor_append,
        resolveTex_opsFor_nil imp pre _ _ "cube" (by simp) (by simp), hrest,
        resolveShader_opsFor_nil _ _ "cube" (by simp), hmesh]
      rfl
    · rw [hdc, hmesh]
  · intro hm
    have hmesh := resolveCubeMesh_miss n hm
    have hid : d.cube = n := by rw [hdc, hmesh]
    rw [htr, opsFor_append, opsFor_append,
      resolveTex_opsFor_nil imp pre _ _ "cube" (by simp) (by simp), hrest,
      resolveShader_opsFor_nil _ _ "cube" (by simp), hmesh, hid]
    rfl
  · intro e he
    have htm : getR (resolveCubeMesh c n).cache .cubeMapTexture "texture" = some e := by
      rw [resolveCubeMesh_getR_other c n "texture" (by simp)]
      exact he
    have htex := resolveTex_hit imp pre (resolveCubeMesh c n).nextId htm
    constructor
    · rw [htr, opsFor_append, opsFor_append,
        resolveCubeMesh_opsFor_nil c n "texture" (by simp) (by simp), hrest,
        resolveShader_opsFor_nil _ _ "texture" (by simp), htex]
      rfl
    · rw [htex] at hdt
      simp at hdt
      exact hdt.symm
  · intro ht2
    obtain ⟨ie, img, t3, hie, hfin, h0, hrest3, hfile, hcube2, htex2, htr2⟩ :=
      construct_tex_ok_cases imp pre c n hok ht2
    have ht3Nil : opsFor .cubeMapTexture "texture" t3 = [] :=
      opsFor_of_fileOps hfile _ _
    rw [htr2]
    simp only [opsFor_append]
    rw [resolveCubeMesh_opsFor_nil c n "texture" (by simp) (by simp), ht3Nil,
      resolveShader_opsFor_nil _ _ "texture" (by simp)]
    rfl
  · intro e he
    have hsh : getR (resolveCubeMapTexture imp pre (resolveCubeMesh c n).cache
        (resolveCubeMesh c n).nextId).cache .shaderProgram "shader" = some e := by
      rw [resolveTex_getR_other imp pre _ _ "shader" (by simp),
        resolveCubeMesh_getR_other c n "shader" (by simp)]
      exact he
    have hshc := resolveShader_hit (resolveCubeMapTexture imp pre
      (resolveCubeMesh c n).cache (resolveCubeMesh c n).nextId).nextId hsh
    constructor
    · rw [htr, opsFor_append, opsFor_append,
        resolveCubeMesh_opsFor_nil c n "shader" (by simp) (by simp),
        resolveTex_opsFor_nil imp pre _ _ "shader" (by simp) (by simp), hrest, hshc]
      rfl
    · rw [hds, hshc]
  · intro hm2
    have hsh : getR (resolveCubeMapTexture imp pre (resolveCubeMesh c n).cache
        (resolveCubeMesh c n).nextId).cache .shaderProgram "shader" = none := by
      rw [resolveTex_getR_other imp pre _ _ "shader" (by simp),
        resolveCubeMesh_getR_other c n "shader" (by simp)]
      exact hm2
    have hshc := resolveShader_miss (resolveCubeMapTexture imp pre
      (resolveCubeMesh c n).cache (resolveCubeMesh c n).nextId).nextId hsh
    have hid : d.shader = (resolveCubeMapTexture imp pre (resolveCubeMesh c n).cache
        (resolveCubeMesh c n).nextId).nextId := by
      rw [hds, hshc]
    rw [htr, opsFor_append, opsFor_append,
      resolveCubeMesh_opsFor_nil c n "shader" (by simp) (by simp),
      resolveTex_opsFor_nil imp pre _ _ "shader" (by simp) (by simp), hrest, hshc, hid]
    rfl

/-- C3: if the texture key is a cache miss, the Final importer is
available, and any one face fails to decode, then construction fails as a
whole with a DecodeError naming a path that indeed fails to decode, and
the cache still has no entry under the texture key — no `set` for that
slot ever appears in the trace. -/
theorem c3_decode_failure_registers_nothing (imp : String → Option ImageData2D)
    (pre : String) (c : List Entry) (n : Nat) (f : Face)
    (ht : getR c .cubeMapTexture "texture" = none)
    (hie : ∃ ie, getR c .tgaImporter "tga-importer" = some ie ∧ ie.state = .final)
    (hf : imp (pre ++ faceSuffix f) = none) :
    (∃ p, (construct imp pre c n).result = .error (.decodeError p) ∧ imp p = none) ∧
    getR (construct imp pre c n).cache .cubeMapTexture "texture" = none ∧
    setCount (construct imp pre c n).trace .cubeMapTexture "texture" = 0 := by
  obtain ⟨ie, hie2, hfin⟩ := hie
  have htm : getR (resolveCubeMesh c n).cache .cubeMapTexture "texture" = none := by
    rw [resolveCubeMesh_getR_other c n "texture" (by simp)]
    exact ht
  have him : getR (resolveCubeMesh c n).cache .tgaImporter "tga-importer" = some ie := by
    rw [resolveCubeMesh_getR_other c n "tga-importer" (by simp)]
    exact hie2
  have hmsets : setCount (resolveCubeMesh c n).trace .cubeMapTexture "texture" = 0 := by
    rcases resolveCubeMesh_trace_shape c n with ⟨hmt, -⟩ | ⟨hmt, -, -⟩ <;> rw [hmt] <;> rfl
  cases h0 : imp (pre ++ faceSuffix .px) with
  | none =>
    have hTex := resolveTex_firstFaceFail imp pre (resolveCubeMesh c n).nextId htm him
      hfin h0
    have hC : construct imp pre c n =
        ⟨.error (.decodeError (pre ++ faceSuffix .px)), (resolveCubeMesh c n).cache,
         (resolveCubeMesh c n).nextId + 1,
         (resolveCubeMesh c n).trace ++
           [.getE .cubeMapTexture "texture" false,
            .getE .tgaImporter "tga-importer" true,
            .openFileE (pre ++ faceSuffix .px)]⟩ := by
      simp [construct, hTex]
    refine ⟨⟨pre ++ faceSuffix .px, by rw [hC], h0⟩, by rw [hC]; exact htm, ?_⟩
    rw [hC]
    simp only
    rw [setCount_append, hmsets]
    rfl
  | some img =>
    have hmem : f ∈ [Face.nx, Face.py, Face.ny, Face.pz, Face.nz] := by
      cases f <;> simp_all
    obtain ⟨t3, p, hup, hp⟩ := uploadFaces_fail imp pre _ ⟨f, hmem, hf⟩
    have hfile : ∀ e ∈ t3, isFileOp e = true := by
      have hall := uploadFaces_fileOps imp pre [Face.nx, Face.py, Face.ny, Face.pz, Face.nz]
      rw [hup] at hall
      exact hall
    have hTex := resolveTex_restFail imp pre (resolveCubeMesh c n).nextId htm him
      hfin h0 hup
    have hC : construct imp pre c n =
        ⟨.error (.decodeError p), (resolveCubeMesh c n).cache,
         (resolveCubeMesh c n).nextId + 1,
         (resolveCubeMesh c n).trace ++
           ([.getE .cubeMapTexture "texture" false,
             .getE .tgaImporter "tga-importer" true,
             .openFileE (pre ++ faceSuffix .px),
             .setStorageE (storageLevels img.width img.height) img.width img.height,
             .setSubImageE .px 0] ++ t3)⟩ := by
      simp [construct, hTex]
    refine ⟨⟨p, by rw [hC], hp⟩, by rw [hC]; exact htm, ?_⟩
    rw [hC]
    simp only
    rw [setCount_append, setCount_append, hmsets, setCount_of_fileOps hfile]
    rfl

/-- C1: starting from a cache with at most one entry per resolved slot,
two successive successful constructions hold identical handles for all
three resources, the second changes neither the cache nor the freshness
counter and performs no registration at all, and after every prefix of the
combined event trace the cache still has at most one entry under each of
the three resolved slots — the resources were constructed at most once. -/
theorem c1_resources_shared_and_unique
    (imp1 imp2 : String → Option ImageData2D) (pre1 pre2 : String)
    (c0 : List Entry) (n0 : Nat) (d1 d2 : CubeMap)
    (hs1 : slotCount c0 .mesh "cube" ≤ 1)
    (hs2 : slotCount c0 .cubeMapTexture "texture" ≤ 1)
    (hs3 : slotCount c0 .shaderProgram "shader" ≤ 1)
    (hok1 : (construct imp1 pre1 c0 n0).result = .ok d1)
    (hok2 : (construct imp2 pre2 (construct imp1 pre1 c0 n0).cache
      (construct imp1 pre1 c0 n0).nextId).result = .ok d2) :
    d2 = d1 ∧
    (construct imp2 pre2 (construct imp1 pre1 c0 n0).cache
      (construct imp1 pre1 c0 n0).nextId).cache = (construct imp1 pre1 c0 n0).cache ∧
    (construct imp2 pre2 (construct imp1 pre1 c0 n0).cache
      (construct imp1 pre1 c0 n0).nextId).nextId = (construct imp1 pre1 c0 n0).nextId ∧
    setsOf (construct imp2 pre2 (construct imp1 pre1 c0 n0).cache
      (construct imp1 pre1 c0 n0).nextId).trace = [] ∧
    (∀ t1 t2,
      (construct imp1 pre1 c0 n0).trace ++
        (construct imp2 pre2 (construct imp1 pre1 c0 n0).cache
          (construct imp1 pre1 c0 n0).nextId).trace = t1 ++ t2 →
      slotCount (applyEvents c0 t1) .mesh "cube" ≤ 1 ∧
      slotCount (applyEvents c0 t1) .cubeMapTexture "texture" ≤ 1 ∧
      slotCount (applyEvents c0 t1) .shaderProgram "shader" ≤ 1) := by
  obtain ⟨⟨em, hem, hemres⟩, ⟨et, het, hetres⟩, ⟨es, hes, hesres⟩⟩ :=
    construct_ok_spec imp1 pre1 c0 n0 hok1
  have hC2 := construct_all_hit imp2 pre2 (construct imp1 pre1 c0 n0).nextId hem het hes
  rw [hC2] at hok2
  simp at hok2
  have hd : d2 = d1 := by
    rw [← hok2, hemres, hetres, hesres]
  refine ⟨hd, by rw [hC2], by rw [hC2], by rw [hC2]; rfl, ?_⟩
  intro t1 t2 hsplit
  have hfin : applyEvents c0 (t1 ++ t2) = (construct imp1 pre1 c0 n0).cache := by
    rw [← hsplit, applyEvents_append, construct_applyEvents imp1 pre1 c0 n0, hC2]
    rfl
  obtain ⟨dd, hdd⟩ := applyEvents_grows t2 (applyEvents c0 t1)
  rw [applyEvents_append, hdd] at hfin
  obtain ⟨b1, b2, b3⟩ := construct_slots imp1 pre1 c0 n0 hs1 hs2 hs3
  rw [← hfin, slotCount_append] at b1 b2 b3
  exact ⟨by omega, by omega, by omega⟩

/-! ### Concrete witnesses -/

/-- An importer whose every face decodes as a 256×256 image. -/
def impOk : String → Option ImageData2D := fun _ => some ⟨256, 256⟩

/-- An importer for which the −y face fails to decode. -/
def impBad : String → Option ImageData2D :=
  fun p => if p = "t/-y.tga" then none else some ⟨256, 256⟩

/-- A pre-registered Final tga-importer entry. -/
def importerEntry : Entry := ⟨.tgaImporter, "tga-importer", 100, .final, .manual⟩

/-- The initial cache holding only the importer. -/
def cache0 : List Entry := [importerEntry]

theorem c1_resources_shared_and_unique_witness :
    (construct impOk "u/" (construct impOk "t/" cache0 0).cache
      (construct impOk "t/" cache0 0).nextId).cache = (construct impOk "t/" cache0 0).cache ∧
    (construct impOk "u/" (construct impOk "t/" cache0 0).cache
      (construct impOk "t/" cache0 0).nextId).nextId = (construct impOk "t/" cache0 0).nextId ∧
    setsOf (construct impOk "u/" (construct impOk "t/" cache0 0).cache
      (construct impOk "t/" cache0 0).nextId).trace = [] :=
  ⟨(c1_resources_shared_and_unique impOk impOk "t/" "u/" cache0 0 ⟨0, 3, 4⟩ ⟨0, 3, 4⟩
      (by decide) (by decide) (by decide) rfl rfl).2.1,
   (c1_resources_shared_and_unique impOk impOk "t/" "u/" cache0 0 ⟨0, 3, 4⟩ ⟨0, 3, 4⟩
      (by decide) (by decide) (by decide) rfl rfl).2.2.1,
   (c1_resources_shared_and_unique impOk impOk "t/" "u/" cache0 0 ⟨0, 3, 4⟩ ⟨0, 3, 4⟩
      (by decide) (by decide) (by decide) rfl rfl).2.2.2.1⟩

theorem c2_get_first_set_only_on_miss_witness :
    opsFor .mesh "cube" (construct impOk "t/" cache0 0).trace =
      [.getE .mesh "cube" false, .setE .mesh "cube" 0 .final .resident] ∧
    opsFor .cubeMapTexture "texture" (construct impOk "t/" cache0 0).trace =
      [.getE .cubeMapTexture "texture" false,
       .setE .cubeMapTexture "texture" 3 .final .manual] ∧
    opsFor .shaderProgram "shader" (construct impOk "t/" cache0 0).trace =
      [.getE .shaderProgram "shader" false,
       .setE .shaderProgram "shader" 4 .final .manual] :=
  ⟨(c2_get_first_set_only_on_miss impOk "t/" cache0 0 ⟨0, 3, 4⟩ rfl).2.1 rfl,
   (c2_get_first_set_only_on_miss impOk "t/" cache0 0 ⟨0, 3, 4⟩ rfl).2.2.2.1 rfl,
   (c2_get_first_set_only_on_miss impOk "t/" cache0 0 ⟨0, 3, 4⟩ rfl).2.2.2.2.2 rfl⟩

theorem c3_decode_failure_registers_nothing_witness :
    getR (construct impBad "t/" cache0 0).cache .cubeMapTexture "texture" = none ∧
    setCount (construct impBad "t/" cache0 0).trace .cubeMapTexture "texture" = 0 :=
  ⟨(c3_decode_failure_registers_nothing impBad "t/" cache0 0 .ny rfl
      ⟨importerEntry, rfl, rfl⟩ rfl).2.1,
   (c3_decode_failure_registers_nothing impBad "t/" cache0 0 .ny rfl
      ⟨importerEntry, rfl, rfl⟩ rfl).2.2⟩

theorem c5_storage_from_first_face_witness :
    storageOps (construct impOk "t/" cache0 0).trace =
      [.setStorageE (storageLevels 256 256) 256 256] ∧
    storageLevels 256 256 = Nat.log2 (min 256 256) + 1 ∧
    storageLevels 256 256 = 9 :=
  c5_storage_from_first_face impOk "t/" cache0 0 ⟨256, 256⟩ ⟨0, 3, 4⟩ rfl rfl rfl

theorem c6_face_order_and_single_mipmap_pass_witness :
    texOps (construct impOk "t/" cache0 0).trace =
      (faceOrder.map fun f => Ev.setSubImageE f 0) ++ [Ev.generateMipmapE] :=
  c6_face_order_and_single_mipmap_pass impOk "t/" cache0 0 ⟨0, 3, 4⟩ rfl rfl

theorem c7_policy_by_sharing_semantics_witness :
    (((.cubeMapTexture : Kind) = .mesh ∨ (.cubeMapTexture : Kind) = .buffer) →
      (.manual : ResourcePolicy) = .resident) ∧
    (((.cubeMapTexture : Kind) = .cubeMapTexture ∨
        (.cubeMapTexture : Kind) = .shaderProgram) →
      (.manual : ResourcePolicy) = .manual) ∧
    (.cubeMapTexture : Kind) ≠ .tgaImporter :=
  c7_policy_by_sharing_semantics impOk "t/" cache0 0
    (.cubeMapTexture, "texture", .manual) (by decide)

end MagnumCubeMap
